import Mathlib

/-! # MPEG-1/2 audio header parsing (`av_parsers.c`)

A shallow embedding of the MPEG audio header decoders and of the two
synchronisation scanners of `src/av_parsers.c`, followed by the properties
proved about them.

Conventions of the embedding:

* a `u32` header word is a `Nat`; shifts and masks are the `Nat` ones, and
  every place where the C arithmetic is done modulo `2^32` (or cut to `u16`)
  carries the reduction explicitly;
* a byte (`u8`) is a `Fin 256`;
* a buffer, or the content of a stream, is a `List u8`; the `size` argument of
  the buffer scanner is the length of the list;
* the output parameter `*pos` of the buffer scanner is the second component
  of the returned pair.
-/

namespace Mp3

/-! ## Header field decoders -/

/-- The `u8` of the C source. -/
abbrev u8 := Fin 256

/-- The function `gf_mp3_version`: `(hdr >> 19) & 0x3`. -/
def gf_mp3_version (hdr : Nat) : Nat :=
  (hdr >>> 19) &&& 0x3

/-- The function `gf_mp3_layer`: `4 - ((hdr >> 17) & 0x3)`. -/
def gf_mp3_layer (hdr : Nat) : Nat :=
  4 - ((hdr >>> 17) &&& 0x3)

/-- The function `gf_mp3_num_channels`. -/
def gf_mp3_num_channels (hdr : Nat) : Nat :=
  if (hdr >>> 6) &&& 0x3 = 3 then 1 else 2

/-- The function `gf_mp3_sampling_rate`.  The `switch` on the sample-rate
index either sets `res` or, in its `default` branch, returns `0`; `res /= 2`
is the `u16` division. -/
def gf_mp3_sampling_rate (hdr : Nat) : Nat :=
  let version := gf_mp3_version hdr
  let sampleRateIndex := (hdr >>> 10) &&& 0x3
  let switched : Option Nat :=
    match sampleRateIndex with
    | 0 => some 44100
    | 1 => some 48000
    | 2 => some 32000
    | _ => none
  match switched with
  | none => 0
  | some res =>
    if version &&& 1 ≠ 0 then res
    else
      let res := res / 2
      if version = 0 then res / 2 else res

/-- The function `gf_mp3_window_size`. -/
def gf_mp3_window_size (hdr : Nat) : Nat :=
  let version := gf_mp3_version hdr
  let layer := gf_mp3_layer hdr
  if layer = 3 then
    if version = 3 then 1152 else 576
  else if layer = 2 then 1152
  else 384

/-- The static table `bitrate_table[5][15]`. -/
def bitrate_table : List (List Nat) :=
  [ [0, 32000, 64000, 96000, 128000, 160000, 192000, 224000,
     256000, 288000, 320000, 352000, 384000, 416000, 448000],
    [0, 32000, 48000, 56000, 64000, 80000, 96000, 112000,
     128000, 160000, 192000, 224000, 256000, 320000, 384000],
    [0, 32000, 40000, 48000, 56000, 64000, 80000, 96000,
     112000, 128000, 160000, 192000, 224000, 256000, 320000],
    [0, 32000, 48000, 56000, 64000, 80000, 96000, 112000,
     128000, 144000, 160000, 176000, 192000, 224000, 256000],
    [0, 8000, 16000, 24000, 32000, 40000, 48000, 56000,
     64000, 80000, 96000, 112000, 128000, 144000, 160000] ]

/-- The read `bitrate_table[lidx][bitRateIndex]`; `none` when an index is
outside the 5 rows and 15 columns. -/
def bitrate_table_at (lidx bitRateIndex : Nat) : Option Nat :=
  match bitrate_table.get? lidx with
  | some row => row.get? bitRateIndex
  | none => none

/-- The function `gf_mp3_bit_rate`, with the table read kept fallible: the
result is `none` exactly when the C code would read outside the table.  The
first `if` either sets `lidx` or returns `0` (here: `none` for `lidx`). -/
def gf_mp3_bit_rate_checked (hdr : Nat) : Option Nat :=
  let version := gf_mp3_version hdr
  let layer := gf_mp3_layer hdr
  let bitRateIndex := (hdr >>> 12) &&& 0xF
  let lidx_or_return : Option Nat :=
    if version &&& 1 ≠ 0 then
      if layer = 0 then none else some (layer - 1)
    else some (3 + (layer >>> 1))
  match lidx_or_return with
  | none => some 0
  | some lidx =>
    if lidx > 4 then some 0
    else if bitRateIndex > 14 then some 0
    else bitrate_table_at lidx bitRateIndex

/-- The function `gf_mp3_bit_rate` as a total function (an out-of-table read,
which never happens, would give `0`). -/
def gf_mp3_bit_rate (hdr : Nat) : Nat :=
  (gf_mp3_bit_rate_checked hdr).getD 0

/-- The function `gf_mp3_frame_size` before the final cast: the `u32` value of
`frameSize` at the `return`, every `u32` operation reduced modulo `2^32`. -/
def gf_mp3_frame_size_u32 (hdr : Nat) : Nat :=
  let version := gf_mp3_version hdr
  let layer := gf_mp3_layer hdr
  let pad := if (hdr >>> 9) &&& 0x1 ≠ 0 then 1 else 0
  let bitrate := gf_mp3_bit_rate hdr
  let samplerate := gf_mp3_sampling_rate hdr
  if samplerate = 0 ∨ bitrate = 0 then 0
  else if layer = 1 then
    ((((12 * bitrate) % 2 ^ 32) / samplerate + pad) % 2 ^ 32 * 4) % 2 ^ 32
  else
    let slots_per_frame := if layer = 3 ∧ ¬ (version &&& 1 ≠ 0) then 72 else 144
    (((slots_per_frame * bitrate) % 2 ^ 32) / samplerate + pad) % 2 ^ 32

/-- The function `gf_mp3_frame_size`: the `u32` frame size cast to `u16`. -/
def gf_mp3_frame_size (hdr : Nat) : Nat :=
  gf_mp3_frame_size_u32 hdr % 2 ^ 16

/-! ## The synchronisation scanners -/

/-- Modelled from the spec: the macro `GF_4CC` is defined in a header that is
not part of the sources at hand; it composes four bytes into the 32-bit
big-endian word `(a << 24) | (b << 16) | (c << 8) | d`. -/
def GF_4CC (a b c d : Nat) : Nat :=
  (a <<< 24) ||| (b <<< 16) ||| (c <<< 8) ||| d

/-- The test of state 1, written inline in both scanners:
`((b & 0xE0) == 0xE0) && ((b & 0x18) != 0x08) && ((b & 0x06) != 0)`. -/
def state1_test (b : u8) : Bool :=
  (b.val &&& 0xE0 == 0xE0) && (b.val &&& 0x18 != 0x08) && (b.val &&& 0x06 != 0)

/-- The rejection test of state 2, written inline in both scanners:
`((b & 0xF0) == 0) || ((b & 0xF0) == 0xF0) || ((b & 0x0C) == 0x0C)`. -/
def state2_reject (b : u8) : Bool :=
  (b.val &&& 0xF0 == 0) || (b.val &&& 0xF0 == 0xF0) || (b.val &&& 0x0C == 0x0C)

/-- The local variables of a scanner that live across loop iterations:
`state`, `dropped` and the array `bytes[4]`. -/
structure Scan where
  state : Nat
  dropped : Nat
  bytes0 : u8
  bytes1 : u8
  bytes2 : u8
  bytes3 : u8
deriving DecidableEq, Repr

/-- The variables at loop entry: `state = 0`, `dropped = 0`, `bytes` zeroed. -/
def Scan.init : Scan :=
  { state := 0, dropped := 0, bytes0 := 0, bytes1 := 0, bytes2 := 0, bytes3 := 0 }

/-- The header word `GF_4CC((u32)bytes[0], bytes[1], bytes[2], bytes[3])`. -/
def Scan.word (s : Scan) : Nat :=
  GF_4CC s.bytes0.val s.bytes1.val s.bytes2.val s.bytes3.val

/-- Outcome of the `if (state == 3)` block of the buffer scanner: either the
function returns (value, `*pos`), or the iteration goes on. -/
inductive Step where
  | ret (val pos : Nat)
  | next (s : Scan)
deriving DecidableEq, Repr

/-- The block `if (state == 3) { ... }` of `gf_mp3_get_next_header_mem`;
`cur` is the index after the increment. -/
def mem_state3 (s : Scan) (cur : Nat) (b : u8) : Step :=
  if s.state = 3 then
    let s := { s with bytes3 := b }
    let val := s.word
    if gf_mp3_frame_size val ≠ 0 then .ret val s.dropped
    else .next { s with state := 0, dropped := cur }
  else .next s

/-- The block `if (state == 2) { ... }` of `gf_mp3_get_next_header_mem`. -/
def mem_state2 (s : Scan) (cur : Nat) (b : u8) : Scan :=
  if s.state = 2 then
    if state2_reject b then
      if s.bytes1 = 0xFF then
        { s with state := 1, dropped := (s.dropped + 1) % 2 ^ 32 }
      else
        { s with state := 0, dropped := cur }
    else
      { s with bytes2 := b, state := 3 }
  else s

/-- The block `if (state == 1) { ... }` of `gf_mp3_get_next_header_mem`. -/
def mem_state1 (s : Scan) (cur : Nat) (b : u8) : Scan :=
  if s.state = 1 then
    if state1_test b then
      { s with bytes1 := b, state := 2 }
    else
      { s with state := 0, dropped := cur }
  else s

/-- The block `if (state == 0) { ... }` of `gf_mp3_get_next_header_mem`. -/
def mem_state0 (s : Scan) (b : u8) : Scan :=
  if s.state = 0 then
    if b = 0xFF then
      { s with bytes0 := b, state := 1 }
    else
      { s with dropped := (s.dropped + 1) % 2 ^ 32 }
  else s

/-- The loop `while (cur < size)` of `gf_mp3_get_next_header_mem`, over the
bytes not yet read; `cur` is the index of the first of them.  The four blocks
run one after the other on the same byte, as in the source.  Falling out of
the loop returns `0` and leaves `*pos` at the `0` stored before the loop.
`cur` never wraps: it stays below `size`, a `u32`. -/
def mem_loop : List u8 → Nat → Scan → Nat × Nat
  | [], _, _ => (0, 0)
  | b :: rest, cur, s =>
    match mem_state3 s (cur + 1) b with
    | .ret val pos => (val, pos)
    | .next s =>
      mem_loop rest (cur + 1)
        (mem_state0 (mem_state1 (mem_state2 s (cur + 1) b) (cur + 1) b) b)

/-- The function `gf_mp3_get_next_header_mem(buffer, size, pos)`: the result
is the pair of the returned header and the final `*pos`. -/
def gf_mp3_get_next_header_mem (buffer : List u8) : Nat × Nat :=
  mem_loop buffer 0 Scan.init

/-- The block `if (state == 2) { ... }` of `gf_mp3_get_next_header`. -/
def stream_state2 (s : Scan) (b : u8) : Scan :=
  if s.state = 2 then
    if state2_reject b then
      if s.bytes1 = 0xFF then { s with state := 1 }
      else { s with state := 0 }
    else
      { s with bytes2 := b, state := 3 }
  else s

/-- The block `if (state == 1) { ... }` of `gf_mp3_get_next_header`. -/
def stream_state1 (s : Scan) (b : u8) : Scan :=
  if s.state = 1 then
    if state1_test b then
      { s with bytes1 := b, state := 2 }
    else
      { s with state := 0 }
  else s

/-- The block `if (state == 0) { ... }` of `gf_mp3_get_next_header`. -/
def stream_state0 (s : Scan) (b : u8) : Scan :=
  if s.state = 0 then
    if b = 0xFF then
      { s with bytes0 := b, state := 1 }
    else
      if s.dropped = 0 ∧ state1_test b then
        { s with bytes0 := 0xFF, bytes1 := b, state := 2 }
      else
        { s with dropped := (s.dropped + 1) % 2 ^ 32 }
  else s

/-- The loop `while (1)` of `gf_mp3_get_next_header` over the bytes that
`gf_fread` will deliver; the empty list is the end of the input, where the
function returns `0`. -/
def stream_loop : List u8 → Scan → Nat
  | [], _ => 0
  | b :: rest, s =>
    if s.state = 3 then
      ({ s with bytes3 := b } : Scan).word
    else
      stream_loop rest (stream_state0 (stream_state1 (stream_state2 s b) b) b)

/-- The function `gf_mp3_get_next_header(in)`, the stream given by the list of
the bytes it holds. -/
def gf_mp3_get_next_header (input : List u8) : Nat :=
  stream_loop input Scan.init

/-! ## Header words given by their bit fields -/

/-- The header word whose bit fields are, from the most significant one: the
11 sync bits, the version code, the layer code, the CRC flag, the bitrate
index, the sample-rate index, the padding flag, the private flag, the channel
mode, and the six low bits (mode extension, copyright, original, emphasis). -/
def mk_header (sync version layer_code crc bitrate_index samplerate_index
    padding priv channel_mode low : Nat) : Nat :=
  sync * 2 ^ 21 + version * 2 ^ 19 + layer_code * 2 ^ 17 + crc * 2 ^ 16 +
    bitrate_index * 2 ^ 12 + samplerate_index * 2 ^ 10 + padding * 2 ^ 9 +
    priv * 2 ^ 8 + channel_mode * 2 ^ 6 + low

/-- The header word that keeps of `hdr` only the fields read by the bit-rate,
sample-rate and frame-size decoders: version, layer code, bitrate index,
sample-rate index and padding flag. -/
def core_header (hdr : Nat) : Nat :=
  mk_header 0 (hdr / 2 ^ 19 % 4) (hdr / 2 ^ 17 % 4) 0 (hdr / 2 ^ 12 % 16)
    (hdr / 2 ^ 10 % 4) (hdr / 2 ^ 9 % 2) 0 0 0

/-- The property `P` holds of every core header as soon as it holds of the
header built from each choice of the five fields. -/
def for_all_core (P : Nat → Prop) : Prop :=
  ∀ v, v < 4 → ∀ l, l < 4 → ∀ i, i < 16 → ∀ r, r < 4 → ∀ p, p < 2 →
    P (mk_header 0 v l 0 i r p 0 0 0)

instance for_all_core_decidable (P : Nat → Prop) [DecidablePred P] :
    Decidable (for_all_core P) := by
  unfold for_all_core
  infer_instance

/-! ## Specification vocabulary for the scanners -/

/-- A byte passes the state-1 test: `(b & 0xE0) = 0xE0`, `(b & 0x18) ≠ 0x08`
and `(b & 0x06) ≠ 0`. -/
def passes_state1 (b : u8) : Prop :=
  b.val &&& 0xE0 = 0xE0 ∧ b.val &&& 0x18 ≠ 0x08 ∧ b.val &&& 0x06 ≠ 0

/-- A byte passes the state-2 test: `(b & 0xF0)` is neither `0x00` nor `0xF0`,
and `(b & 0x0C) ≠ 0x0C`. -/
def passes_state2 (b : u8) : Prop :=
  b.val &&& 0xF0 ≠ 0x00 ∧ b.val &&& 0xF0 ≠ 0xF0 ∧ b.val &&& 0x0C ≠ 0x0C

instance passes_state1_decidable (b : u8) : Decidable (passes_state1 b) := by
  unfold passes_state1
  infer_instance

instance passes_state2_decidable (b : u8) : Decidable (passes_state2 b) := by
  unfold passes_state2
  infer_instance

/-- The big-endian 32-bit word of the four bytes of `buffer` at indices
`i .. i+3` (bytes beyond the end read as `0`). -/
def window_word (buffer : List u8) (i : Nat) : Nat :=
  GF_4CC (buffer.getD i 0).val (buffer.getD (i + 1) 0).val
    (buffer.getD (i + 2) 0).val (buffer.getD (i + 3) 0).val

/-- Index `i` starts four bytes accepted by the sync automaton: `i + 3` is
inside the buffer, `buffer[i] = 0xFF`, `buffer[i+1]` passes the state-1 test
and `buffer[i+2]` passes the state-2 test. -/
def sync_window (buffer : List u8) (i : Nat) : Prop :=
  i + 3 < buffer.length ∧ buffer.getD i 0 = 0xFF ∧
    passes_state1 (buffer.getD (i + 1) 0) ∧ passes_state2 (buffer.getD (i + 2) 0)

/-- Index `i` is a valid window: a sync window whose word has a nonzero
`gf_mp3_frame_size`. -/
def valid_window (buffer : List u8) (i : Nat) : Prop :=
  sync_window buffer i ∧ gf_mp3_frame_size (window_word buffer i) ≠ 0

instance sync_window_decidable (buffer : List u8) (i : Nat) :
    Decidable (sync_window buffer i) := by
  unfold sync_window
  infer_instance

instance valid_window_decidable (buffer : List u8) (i : Nat) :
    Decidable (valid_window buffer i) := by
  unfold valid_window
  infer_instance

/-- A header word is structurally valid at the bit level: its top 11 bits are
all ones, its version field is not the reserved code 01, its layer field is
not 00, its bitrate index is neither 0 nor 15 and its sample-rate index is
not 3. -/
def structurally_valid (hdr : Nat) : Prop :=
  hdr >>> 21 = 0x7FF ∧ (hdr >>> 19) &&& 3 ≠ 1 ∧ (hdr >>> 17) &&& 3 ≠ 0 ∧
    (hdr >>> 12) &&& 0xF ≠ 0 ∧ (hdr >>> 12) &&& 0xF ≠ 15 ∧ (hdr >>> 10) &&& 3 ≠ 3

instance structurally_valid_decidable (hdr : Nat) : Decidable (structurally_valid hdr) := by
  unfold structurally_valid
  infer_instance

/-- The list starts with four bytes accepted by the sync automaton. -/
def head_sync : List u8 → Bool
  | b0 :: b1 :: b2 :: _ :: _ => b0 == 0xFF && state1_test b1 && !state2_reject b2
  | _ => false

/-- The big-endian word of the first four bytes of the list. -/
def head_word : List u8 → Nat
  | b0 :: b1 :: b2 :: b3 :: _ => GF_4CC b0.val b1.val b2.val b3.val
  | _ => 0

/-- The word of the first four consecutive bytes of the list accepted by the
sync automaton, `0` when there are none. -/
def first_sync : List u8 → Nat
  | [] => 0
  | b0 :: tl => if head_sync (b0 :: tl) then head_word (b0 :: tl) else first_sync tl

/-- The bytes of the candidate header that the scanner holds in `bytes`. -/
def held (s : Scan) : List u8 :=
  match s.state with
  | 0 => []
  | 1 => [s.bytes0]
  | 2 => [s.bytes0, s.bytes1]
  | _ => [s.bytes0, s.bytes1, s.bytes2]

/-- What the scanners keep true of their variables between two bytes. -/
def scan_inv (s : Scan) : Prop :=
  s.state ≤ 3 ∧ (1 ≤ s.state → s.bytes0 = 0xFF) ∧
    (2 ≤ s.state → state1_test s.bytes1 = true) ∧
    (3 ≤ s.state → state2_reject s.bytes2 = false)

/-! ## Vocabulary for the later properties of the buffer scanner -/

/-- The iterations of the loop of `gf_mp3_get_next_header_mem` that are
begun on the bytes not yet read: for each one, the variables at its start and
the byte it reads.  The list follows `mem_loop` step by step and ends with the
iteration that returns, or with the last byte of the buffer. -/
def mem_iterations : List u8 → Nat → Scan → List (Scan × u8)
  | [], _, _ => []
  | b :: rest, cur, s =>
    (s, b) ::
      match mem_state3 s (cur + 1) b with
      | .ret _ _ => []
      | .next s =>
        mem_iterations rest (cur + 1)
          (mem_state0 (mem_state1 (mem_state2 s (cur + 1) b) (cur + 1) b) b)

/-- An iteration runs the frame-size rejection branch of the state-3 block
(`state = 0; dropped = cur;`): it starts in state 3 and the composed word has
frame size 0. -/
def runs_rejection_branch (it : Scan × u8) : Prop :=
  it.1.state = 3 ∧ gf_mp3_frame_size ({ it.1 with bytes3 := it.2 } : Scan).word = 0

/-- The value of `cur` when `gf_mp3_get_next_header_mem` leaves its loop, by
`return val` or at the end of the buffer: the number of bytes read so far.
It follows `mem_loop` step by step. -/
def mem_loop_cur : List u8 → Nat → Scan → Nat
  | [], cur, _ => cur
  | b :: rest, cur, s =>
    match mem_state3 s (cur + 1) b with
    | .ret _ _ => cur + 1
    | .next s =>
      mem_loop_cur rest (cur + 1)
        (mem_state0 (mem_state1 (mem_state2 s (cur + 1) b) (cur + 1) b) b)

/-- The number of bytes `gf_mp3_get_next_header_mem` has read when it
returns; the last byte read has index `mem_bytes_read buffer - 1`. -/
def mem_bytes_read (buffer : List u8) : Nat :=
  mem_loop_cur buffer 0 Scan.init

/-- The repeated extraction that the spec describes for callers, written
after the spec (it is no function of `av_parsers.c`): invoke the buffer
scanner on the remaining buffer; a result of 0 ends the extraction, and after
a nonzero header the buffer is advanced past `offset + frame_size` of the
accepted frame.  The result is the list of the (header, offset) pairs, `none`
when `fuel` calls did not reach a call returning 0. -/
def spec_extract_headers : Nat → List u8 → Option (List (Nat × Nat))
  | 0, _ => none
  | fuel + 1, buffer =>
    if (gf_mp3_get_next_header_mem buffer).1 = 0 then some []
    else
      (spec_extract_headers fuel
        (buffer.drop ((gf_mp3_get_next_header_mem buffer).2
          + gf_mp3_frame_size (gf_mp3_get_next_header_mem buffer).1))).map
        (fun results => gf_mp3_get_next_header_mem buffer :: results)

/-- A valid frame: it begins with a structurally valid 4-byte header `h` and
is exactly `gf_mp3_frame_size h` bytes long. -/
def valid_frame (frame : List u8) : Prop :=
  4 ≤ frame.length ∧ structurally_valid (window_word frame 0) ∧
    frame.length = gf_mp3_frame_size (window_word frame 0)

instance valid_frame_decidable (frame : List u8) : Decidable (valid_frame frame) := by
  unfold valid_frame
  infer_instance

/-! ## Vocabulary for the stream scanner and its implied first byte -/

/-- Index `i` starts three bytes that the stream scanner accepts after an
implied `0xFF`: `i + 2` is inside the input, every byte before `i` is `0xFF`
or passes the state-1 test (so that no byte has been dropped yet),
`input[i]` is not `0xFF` and passes the state-1 test, and `input[i+1]` passes
the state-2 test. -/
def shortcut_window (input : List u8) (i : Nat) : Prop :=
  i + 2 < input.length ∧
    (∀ j, j < i → input.getD j 0 = 0xFF ∨ passes_state1 (input.getD j 0)) ∧
    input.getD i 0 ≠ 0xFF ∧ passes_state1 (input.getD i 0) ∧
    passes_state2 (input.getD (i + 1) 0)

instance shortcut_window_decidable (input : List u8) (i : Nat) :
    Decidable (shortcut_window input i) := by
  unfold shortcut_window
  infer_instance

/-- The big-endian word of `0xFF` followed by the three input bytes at
indices `i .. i+2`. -/
def shortcut_word (input : List u8) (i : Nat) : Nat :=
  GF_4CC 0xFF (input.getD i 0).val (input.getD (i + 1) 0).val (input.getD (i + 2) 0).val

/-- The list, read after an implied `0xFF`, starts with bytes accepted by the
sync automaton, its own first byte not being `0xFF`. -/
def short_sync : List u8 → Bool
  | [] => false
  | b0 :: tl => b0 != 0xFF && head_sync (0xFF :: b0 :: tl)

/-- The word of `0xFF` followed by the first three bytes of the list. -/
def short_word (l : List u8) : Nat :=
  head_word (0xFF :: l)

/-- The word of the first sequence of the list that the stream scanner
accepts, `0` when there is none: four bytes accepted by the sync automaton,
or, while `fresh` (no byte dropped yet), three bytes accepted after an implied
`0xFF`.  A byte that is neither `0xFF` nor passes the state-1 test ends
`fresh`. -/
def first_accepted : Bool → List u8 → Nat
  | _, [] => 0
  | fresh, b0 :: tl =>
    if head_sync (b0 :: tl) then head_word (b0 :: tl)
    else if fresh && short_sync (b0 :: tl) then short_word (b0 :: tl)
    else first_accepted (fresh && (b0 == 0xFF || state1_test b0)) tl

/-- Index `i` starts a sequence that the stream scanner accepts: four bytes
accepted by the sync automaton, or, when `fresh`, three bytes accepted after
an implied `0xFF`. -/
def accepted_window (fresh : Bool) (input : List u8) (i : Nat) : Prop :=
  sync_window input i ∨ (fresh = true ∧ shortcut_window input i)

instance accepted_window_decidable (fresh : Bool) (input : List u8) (i : Nat) :
    Decidable (accepted_window fresh input i) := by
  unfold accepted_window
  infer_instance

/-- The word that the stream scanner composes for the sequence accepted at
index `i`. -/
def accepted_word (input : List u8) (i : Nat) : Nat :=
  if sync_window input i then window_word input i else shortcut_word input i

/-! # Properties -/

/-! ## Bit fields: auxiliary facts -/

theorem shr_and_3 (x k : Nat) : (x >>> k) &&& 3 = x / 2 ^ k % 4 := by
  rw [Nat.shiftRight_eq_div_pow]
  exact Nat.and_pow_two_sub_one_eq_mod _ 2

theorem shr_and_15 (x k : Nat) : (x >>> k) &&& 0xF = x / 2 ^ k % 16 := by
  rw [Nat.shiftRight_eq_div_pow]
  exact Nat.and_pow_two_sub_one_eq_mod _ 4

theorem shr_and_1 (x k : Nat) : (x >>> k) &&& 1 = x / 2 ^ k % 2 := by
  rw [Nat.shiftRight_eq_div_pow]
  exact Nat.and_pow_two_sub_one_eq_mod _ 1

section fields

variable {sync v l crc i r pad priv mode low : Nat}

theorem mk_header_sync (hv : v < 4) (hl : l < 4) (hcrc : crc < 2) (hi : i < 16)
    (hr : r < 4) (hpad : pad < 2) (hpriv : priv < 2) (hmode : mode < 4) (hlow : low < 64) :
    mk_header sync v l crc i r pad priv mode low >>> 21 = sync := by
  rw [Nat.shiftRight_eq_div_pow, mk_header]; omega

theorem mk_header_version (hv : v < 4) (hl : l < 4) (hcrc : crc < 2) (hi : i < 16)
    (hr : r < 4) (hpad : pad < 2) (hpriv : priv < 2) (hmode : mode < 4) (hlow : low < 64) :
    (mk_header sync v l crc i r pad priv mode low >>> 19) &&& 3 = v := by
  rw [shr_and_3, mk_header]; omega

theorem mk_header_layer_code (hl : l < 4) (hcrc : crc < 2) (hi : i < 16)
    (hr : r < 4) (hpad : pad < 2) (hpriv : priv < 2) (hmode : mode < 4) (hlow : low < 64) :
    (mk_header sync v l crc i r pad priv mode low >>> 17) &&& 3 = l := by
  rw [shr_and_3, mk_header]; omega

theorem mk_header_bitrate_index (hi : i < 16)
    (hr : r < 4) (hpad : pad < 2) (hpriv : priv < 2) (hmode : mode < 4) (hlow : low < 64) :
    (mk_header sync v l crc i r pad priv mode low >>> 12) &&& 0xF = i := by
  rw [shr_and_15, mk_header]; omega

theorem mk_header_samplerate_index
    (hr : r < 4) (hpad : pad < 2) (hpriv : priv < 2) (hmode : mode < 4) (hlow : low < 64) :
    (mk_header sync v l crc i r pad priv mode low >>> 10) &&& 3 = r := by
  rw [shr_and_3, mk_header]; omega

theorem mk_header_padding
    (hpad : pad < 2) (hpriv : priv < 2) (hmode : mode < 4) (hlow : low < 64) :
    (mk_header sync v l crc i r pad priv mode low >>> 9) &&& 1 = pad := by
  rw [shr_and_1, mk_header]; omega

theorem mk_header_channel_mode (hmode : mode < 4) (hlow : low < 64) :
    (mk_header sync v l crc i r pad priv mode low >>> 6) &&& 3 = mode := by
  rw [shr_and_3, mk_header]; omega

end fields

theorem core_field_19 (hdr : Nat) : (core_header hdr >>> 19) &&& 3 = (hdr >>> 19) &&& 3 := by
  rw [shr_and_3 hdr, core_header]
  exact mk_header_version (Nat.mod_lt _ (by decide)) (Nat.mod_lt _ (by decide)) (by decide)
    (Nat.mod_lt _ (by decide)) (Nat.mod_lt _ (by decide)) (Nat.mod_lt _ (by decide))
    (by decide) (by decide) (by decide)

theorem core_field_17 (hdr : Nat) : (core_header hdr >>> 17) &&& 3 = (hdr >>> 17) &&& 3 := by
  rw [shr_and_3 hdr, core_header]
  exact mk_header_layer_code (Nat.mod_lt _ (by decide)) (by decide)
    (Nat.mod_lt _ (by decide)) (Nat.mod_lt _ (by decide)) (Nat.mod_lt _ (by decide))
    (by decide) (by decide) (by decide)

theorem core_field_12 (hdr : Nat) :
    (core_header hdr >>> 12) &&& 0xF = (hdr >>> 12) &&& 0xF := by
  rw [shr_and_15 hdr, core_header]
  exact mk_header_bitrate_index (Nat.mod_lt _ (by decide)) (Nat.mod_lt _ (by decide))
    (Nat.mod_lt _ (by decide)) (by decide) (by decide) (by decide)

theorem core_field_10 (hdr : Nat) : (core_header hdr >>> 10) &&& 3 = (hdr >>> 10) &&& 3 := by
  rw [shr_and_3 hdr, core_header]
  exact mk_header_samplerate_index (Nat.mod_lt _ (by decide)) (Nat.mod_lt _ (by decide))
    (by decide) (by decide) (by decide)

theorem core_field_9 (hdr : Nat) : (core_header hdr >>> 9) &&& 1 = (hdr >>> 9) &&& 1 := by
  rw [shr_and_1 hdr, core_header]
  exact mk_header_padding (Nat.mod_lt _ (by decide)) (by decide) (by decide) (by decide)

theorem version_core (hdr : Nat) : gf_mp3_version (core_header hdr) = gf_mp3_version hdr := by
  simp only [gf_mp3_version, core_field_19]

theorem layer_core (hdr : Nat) : gf_mp3_layer (core_header hdr) = gf_mp3_layer hdr := by
  simp only [gf_mp3_layer, core_field_17]

theorem sampling_rate_core (hdr : Nat) :
    gf_mp3_sampling_rate (core_header hdr) = gf_mp3_sampling_rate hdr := by
  simp only [gf_mp3_sampling_rate, version_core, core_field_10]

theorem bit_rate_checked_core (hdr : Nat) :
    gf_mp3_bit_rate_checked (core_header hdr) = gf_mp3_bit_rate_checked hdr := by
  simp only [gf_mp3_bit_rate_checked, version_core, layer_core, core_field_12]

theorem bit_rate_core (hdr : Nat) :
    gf_mp3_bit_rate (core_header hdr) = gf_mp3_bit_rate hdr := by
  simp only [gf_mp3_bit_rate, bit_rate_checked_core]

theorem frame_size_u32_core (hdr : Nat) :
    gf_mp3_frame_size_u32 (core_header hdr) = gf_mp3_frame_size_u32 hdr := by
  simp only [gf_mp3_frame_size_u32, version_core, layer_core, bit_rate_core,
    sampling_rate_core, core_field_9]

theorem frame_size_core (hdr : Nat) :
    gf_mp3_frame_size (core_header hdr) = gf_mp3_frame_size hdr := by
  simp only [gf_mp3_frame_size, frame_size_u32_core]

/-- A property of core headers checked on every choice of the five fields
holds of the core header of every word. -/
theorem for_all_core_apply {P : Nat → Prop} (h : for_all_core P) (hdr : Nat) :
    P (core_header hdr) :=
  h _ (Nat.mod_lt _ (by decide)) _ (Nat.mod_lt _ (by decide)) _ (Nat.mod_lt _ (by decide))
    _ (Nat.mod_lt _ (by decide)) _ (Nat.mod_lt _ (by decide))

theorem core_header_mk_header {sync v l crc i r pad priv mode low : Nat}
    (hv : v < 4) (hl : l < 4) (hcrc : crc < 2) (hi : i < 16)
    (hr : r < 4) (hpad : pad < 2) (hpriv : priv < 2) (hmode : mode < 4) (hlow : low < 64) :
    core_header (mk_header sync v l crc i r pad priv mode low) =
      mk_header 0 v l 0 i r pad 0 0 0 := by
  have e19 := @mk_header_version sync v l crc i r pad priv mode low
    hv hl hcrc hi hr hpad hpriv hmode hlow
  have e17 := @mk_header_layer_code sync v l crc i r pad priv mode low
    hl hcrc hi hr hpad hpriv hmode hlow
  have e12 := @mk_header_bitrate_index sync v l crc i r pad priv mode low
    hi hr hpad hpriv hmode hlow
  have e10 := @mk_header_samplerate_index sync v l crc i r pad priv mode low
    hr hpad hpriv hmode hlow
  have e9 := @mk_header_padding sync v l crc i r pad priv mode low hpad hpriv hmode hlow
  rw [shr_and_3] at e19 e17 e10
  rw [shr_and_15] at e12
  rw [shr_and_1] at e9
  rw [core_header, e19, e17, e12, e10, e9]

/-! ## The decoders -/

/-- Claim C7: a header built from a non-reserved version code, a layer in
{I, II, III} (stored as the code `4 - layer`), a bitrate index in 0..14, a
sample-rate index in 0..2 and any other bits decodes back to those values:
`gf_mp3_version` gives the version code, `gf_mp3_layer` the layer number,
`gf_mp3_num_channels` 1 for channel mode 3 and 2 otherwise,
`gf_mp3_sampling_rate` the entry of {44100, 48000, 32000} for MPEG-1, half of
it for MPEG-2 and a quarter for MPEG-2.5, and `gf_mp3_bit_rate` the entry of
`bitrate_table` in row `layer - 1` for MPEG-1, row 3 for MPEG-2/2.5 Layer I
and row 4 for MPEG-2/2.5 Layers II and III. -/
theorem gf_mp3_table_round_trip (sync v layer crc i r pad priv mode low : Nat)
    (hv : v = 0 ∨ v = 2 ∨ v = 3) (hlayer : 1 ≤ layer ∧ layer ≤ 3) (hi : i ≤ 14)
    (hr : r ≤ 2) (hcrc : crc < 2) (hpad : pad < 2) (hpriv : priv < 2)
    (hmode : mode < 4) (hlow : low < 64) :
    gf_mp3_version (mk_header sync v (4 - layer) crc i r pad priv mode low) = v ∧
    gf_mp3_layer (mk_header sync v (4 - layer) crc i r pad priv mode low) = layer ∧
    gf_mp3_num_channels (mk_header sync v (4 - layer) crc i r pad priv mode low) =
      (if mode = 3 then 1 else 2) ∧
    some (gf_mp3_sampling_rate (mk_header sync v (4 - layer) crc i r pad priv mode low)) =
      ([44100, 48000, 32000].get? r).map
        (fun rate => if v = 3 then rate else if v = 2 then rate / 2 else rate / 4) ∧
    some (gf_mp3_bit_rate (mk_header sync v (4 - layer) crc i r pad priv mode low)) =
      bitrate_table_at (if v = 3 then layer - 1 else if layer = 1 then 3 else 4) i := by
  obtain ⟨hl1, hl3⟩ := hlayer
  have hv4 : v < 4 := by omega
  have hl4 : 4 - layer < 4 := by omega
  have hi16 : i < 16 := by omega
  have hr4 : r < 4 := by omega
  have e19 := @mk_header_version sync v (4 - layer) crc i r pad priv mode low
    hv4 hl4 hcrc hi16 hr4 hpad hpriv hmode hlow
  have e17 := @mk_header_layer_code sync v (4 - layer) crc i r pad priv mode low
    hl4 hcrc hi16 hr4 hpad hpriv hmode hlow
  have e12 := @mk_header_bitrate_index sync v (4 - layer) crc i r pad priv mode low
    hi16 hr4 hpad hpriv hmode hlow
  have e10 := @mk_header_samplerate_index sync v (4 - layer) crc i r pad priv mode low
    hr4 hpad hpriv hmode hlow
  have e6 := @mk_header_channel_mode sync v (4 - layer) crc i r pad priv mode low hmode hlow
  have hver : gf_mp3_version (mk_header sync v (4 - layer) crc i r pad priv mode low) = v := e19
  have hlay : gf_mp3_layer (mk_header sync v (4 - layer) crc i r pad priv mode low) = layer := by
    rw [gf_mp3_layer, e17]; omega
  refine ⟨hver, hlay, ?_, ?_, ?_⟩
  · rw [gf_mp3_num_channels, e6]
  · rw [gf_mp3_sampling_rate, hver, e10]
    rcases hv with rfl | rfl | rfl <;> interval_cases r <;> rfl
  · rw [gf_mp3_bit_rate, gf_mp3_bit_rate_checked, hver, hlay, e12]
    rcases hv with rfl | rfl | rfl <;> interval_cases layer <;> interval_cases i <;> rfl

/-- Witness for claim C7: the round trip at MPEG-1 Layer III, bitrate index 9,
sample-rate index 0, that is at the header `0xFFFB9000`. -/
theorem gf_mp3_table_round_trip_witness :
    gf_mp3_version (mk_header 0x7FF 3 (4 - 3) 1 9 0 0 0 0 0) = 3 ∧
    gf_mp3_layer (mk_header 0x7FF 3 (4 - 3) 1 9 0 0 0 0 0) = 3 ∧
    gf_mp3_num_channels (mk_header 0x7FF 3 (4 - 3) 1 9 0 0 0 0 0) =
      (if 0 = 3 then 1 else 2) ∧
    some (gf_mp3_sampling_rate (mk_header 0x7FF 3 (4 - 3) 1 9 0 0 0 0 0)) =
      ([44100, 48000, 32000].get? 0).map
        (fun rate => if 3 = 3 then rate else if 3 = 2 then rate / 2 else rate / 4) ∧
    some (gf_mp3_bit_rate (mk_header 0x7FF 3 (4 - 3) 1 9 0 0 0 0 0)) =
      bitrate_table_at (if 3 = 3 then 3 - 1 else if 3 = 1 then 3 else 4) 9 :=
  gf_mp3_table_round_trip 0x7FF 3 3 1 9 0 0 0 0 0 (by decide) (by decide) (by decide)
    (by decide) (by decide) (by decide) (by decide) (by decide) (by decide)

theorem frame_size_zero_iff_core :
    for_all_core (fun h => gf_mp3_frame_size h = 0 ↔
      gf_mp3_sampling_rate h = 0 ∨ gf_mp3_bit_rate h = 0) := by
  decide!

theorem frame_size_formula_core :
    for_all_core (fun h => gf_mp3_sampling_rate h ≠ 0 → gf_mp3_bit_rate h ≠ 0 →
      gf_mp3_frame_size h =
        if gf_mp3_layer h = 1 then
          (12 * gf_mp3_bit_rate h / gf_mp3_sampling_rate h + ((h >>> 9) &&& 1)) * 4
        else
          (if gf_mp3_layer h = 3 ∧ (gf_mp3_version h = 2 ∨ gf_mp3_version h = 0)
            then 72 else 144) * gf_mp3_bit_rate h / gf_mp3_sampling_rate h
            + ((h >>> 9) &&& 1)) := by
  decide!

/-- Claim C8: whenever the decoded sample rate and bit rate of a header are
both nonzero, `gf_mp3_frame_size` is `((12*bitrate/samplerate) + pad) * 4` for
Layer I and `(slots*bitrate/samplerate) + pad` otherwise, the divisions
truncating, with `slots = 72` for Layer III under MPEG-2 or MPEG-2.5 and `144`
in every other case; so an MPEG-1 Layer III header with bit rate 128000,
sample rate 44100 and padding 0 has frame size 417, and `0xFFFB9000` is such a
header. -/
theorem gf_mp3_frame_size_formula :
    (∀ hdr : Nat, gf_mp3_sampling_rate hdr ≠ 0 → gf_mp3_bit_rate hdr ≠ 0 →
      gf_mp3_frame_size hdr =
        if gf_mp3_layer hdr = 1 then
          (12 * gf_mp3_bit_rate hdr / gf_mp3_sampling_rate hdr + ((hdr >>> 9) &&& 1)) * 4
        else
          (if gf_mp3_layer hdr = 3 ∧ (gf_mp3_version hdr = 2 ∨ gf_mp3_version hdr = 0)
            then 72 else 144) * gf_mp3_bit_rate hdr / gf_mp3_sampling_rate hdr
            + ((hdr >>> 9) &&& 1)) ∧
    (∀ hdr : Nat, gf_mp3_version hdr = 3 → gf_mp3_layer hdr = 3 →
      gf_mp3_bit_rate hdr = 128000 → gf_mp3_sampling_rate hdr = 44100 →
      (hdr >>> 9) &&& 1 = 0 → gf_mp3_frame_size hdr = 417) ∧
    (gf_mp3_version 0xFFFB9000 = 3 ∧ gf_mp3_layer 0xFFFB9000 = 3 ∧
      gf_mp3_bit_rate 0xFFFB9000 = 128000 ∧ gf_mp3_sampling_rate 0xFFFB9000 = 44100 ∧
      (0xFFFB9000 >>> 9) &&& 1 = 0 ∧ gf_mp3_frame_size 0xFFFB9000 = 417) := by
  have formula : ∀ hdr : Nat, gf_mp3_sampling_rate hdr ≠ 0 → gf_mp3_bit_rate hdr ≠ 0 →
      gf_mp3_frame_size hdr =
        if gf_mp3_layer hdr = 1 then
          (12 * gf_mp3_bit_rate hdr / gf_mp3_sampling_rate hdr + ((hdr >>> 9) &&& 1)) * 4
        else
          (if gf_mp3_layer hdr = 3 ∧ (gf_mp3_version hdr = 2 ∨ gf_mp3_version hdr = 0)
            then 72 else 144) * gf_mp3_bit_rate hdr / gf_mp3_sampling_rate hdr
            + ((hdr >>> 9) &&& 1) := by
    intro hdr
    have h := for_all_core_apply frame_size_formula_core hdr
    simp only [frame_size_core, sampling_rate_core, bit_rate_core, layer_core, version_core,
      core_field_9] at h
    exact h
  refine ⟨formula, ?_, by decide⟩
  intro hdr hv hl hb hs hp
  rw [formula hdr (by rw [hs]; decide) (by rw [hb]; decide), hl, hv, hb, hs, hp]
  decide

/-- Witness for claim C8: the formula applied to the header `0xFFFB9000`. -/
theorem gf_mp3_frame_size_formula_witness :
    gf_mp3_frame_size 0xFFFB9000 =
      if gf_mp3_layer 0xFFFB9000 = 1 then
        (12 * gf_mp3_bit_rate 0xFFFB9000 / gf_mp3_sampling_rate 0xFFFB9000
          + ((0xFFFB9000 >>> 9) &&& 1)) * 4
      else
        (if gf_mp3_layer 0xFFFB9000 = 3 ∧
            (gf_mp3_version 0xFFFB9000 = 2 ∨ gf_mp3_version 0xFFFB9000 = 0)
          then 72 else 144) * gf_mp3_bit_rate 0xFFFB9000 / gf_mp3_sampling_rate 0xFFFB9000
          + ((0xFFFB9000 >>> 9) &&& 1) :=
  gf_mp3_frame_size_formula.1 0xFFFB9000 (by decide) (by decide)

/-- Claim C9, evaluated on the code at a header with layer code `0b00`:
for `0xFFF99000` (MPEG-1, layer code 00, bitrate index 9) `gf_mp3_layer` is
`4`, yet `gf_mp3_bit_rate` is `bitrate_table[3][9] = 144000`, not `0`; the
test `!layer` of the MPEG-1 branch never fires, while the MPEG-2 branch does
reject the same layer code (`0xFFF19000` gives `0`). -/
theorem gf_mp3_bit_rate_layer_code_zero :
    gf_mp3_layer 0xFFF99000 = 4 ∧ gf_mp3_bit_rate 0xFFF99000 = 144000 ∧
    bitrate_table_at 3 9 = some 144000 ∧
    gf_mp3_layer 0xFFF19000 = 4 ∧ gf_mp3_bit_rate 0xFFF19000 = 0 := by
  decide

/-- Claim C10: `gf_mp3_frame_size` returns `0` if and only if
`gf_mp3_sampling_rate` returns `0` or `gf_mp3_bit_rate` returns `0`. -/
theorem gf_mp3_frame_size_eq_zero_iff (hdr : Nat) :
    gf_mp3_frame_size hdr = 0 ↔ gf_mp3_sampling_rate hdr = 0 ∨ gf_mp3_bit_rate hdr = 0 := by
  rw [← frame_size_core, ← sampling_rate_core, ← bit_rate_core]
  exact for_all_core_apply frame_size_zero_iff_core hdr

theorem GF_4CC_eq (a b c d : Nat) (hb : b < 256) (hc : c < 256) (hd : d < 256) :
    GF_4CC a b c d = a * 2 ^ 24 + b * 2 ^ 16 + c * 2 ^ 8 + d := by
  unfold GF_4CC
  simp only [Nat.shiftLeft_eq]
  have h1 : c * 2 ^ 8 ||| d = c * 2 ^ 8 + d := by
    rw [Nat.mul_comm c, ← Nat.mul_add_lt_is_or (by omega) c]
  have h2 : b * 2 ^ 16 ||| (c * 2 ^ 8 + d) = b * 2 ^ 16 + (c * 2 ^ 8 + d) := by
    rw [Nat.mul_comm b, ← Nat.mul_add_lt_is_or (by omega) b]
  have h3 : a * 2 ^ 24 ||| (b * 2 ^ 16 + (c * 2 ^ 8 + d)) =
      a * 2 ^ 24 + (b * 2 ^ 16 + (c * 2 ^ 8 + d)) := by
    rw [Nat.mul_comm a, ← Nat.mul_add_lt_is_or (by omega) a]
  rw [Nat.lor_assoc, Nat.lor_assoc, h1, h2, h3]
  omega

theorem state1_test_fields : ∀ b : u8, state1_test b = true →
    b.val / 32 = 7 ∧ b.val / 8 % 4 ≠ 1 ∧ b.val / 2 % 4 ≠ 0 := by
  decide!

theorem state2_reject_fields : ∀ b : u8, state2_reject b = false →
    b.val / 16 ≠ 0 ∧ b.val / 16 ≠ 15 ∧ b.val / 4 % 4 ≠ 3 := by
  decide!


theorem state1_test_iff (b : u8) : state1_test b = true ↔ passes_state1 b := by
  revert b
  decide!

theorem state2_reject_iff (b : u8) : state2_reject b = false ↔ passes_state2 b := by
  revert b
  decide!

theorem structurally_valid_core :
    for_all_core (fun h => ((h >>> 19) &&& 3 ≠ 1 ∧ (h >>> 17) &&& 3 ≠ 0 ∧
      (h >>> 12) &&& 0xF ≠ 0 ∧ (h >>> 12) &&& 0xF ≠ 15 ∧ (h >>> 10) &&& 3 ≠ 3) →
      gf_mp3_bit_rate h ≠ 0 ∧ gf_mp3_sampling_rate h ≠ 0 ∧ 24 ≤ gf_mp3_frame_size h) := by
  decide!

theorem structurally_valid_usable (hdr : Nat) (h : structurally_valid hdr) :
    gf_mp3_bit_rate hdr ≠ 0 ∧ gf_mp3_sampling_rate hdr ≠ 0 ∧ 24 ≤ gf_mp3_frame_size hdr := by
  have hc := for_all_core_apply structurally_valid_core hdr
  simp only [frame_size_core, sampling_rate_core, bit_rate_core, core_field_19, core_field_17,
    core_field_12, core_field_10] at hc
  exact hc h.2

theorem sync_word_structurally_valid (b1 b2 b3 : u8) (h1 : state1_test b1 = true)
    (h2 : state2_reject b2 = false) :
    structurally_valid (GF_4CC 0xFF b1.val b2.val b3.val) := by
  have f1 := state1_test_fields b1 h1
  have f2 := state2_reject_fields b2 h2
  have l1 := b1.isLt
  have l2 := b2.isLt
  have l3 := b3.isLt
  rw [GF_4CC_eq _ _ _ _ l1 l2 l3]
  unfold structurally_valid
  rw [shr_and_3, shr_and_3, shr_and_3, shr_and_15, Nat.shiftRight_eq_div_pow]
  omega



/-! ## The first accepted window of a list -/

theorem state1_test_FF : state1_test 0xFF = true := by decide

theorem ne_FF_of_state1_test_false {b : u8} (h : state1_test b = false) : b ≠ 0xFF := by
  intro hb
  rw [hb, state1_test_FF] at h
  exact Bool.noConfusion h

theorem first_sync_short : ∀ l : List u8, l.length < 4 → first_sync l = 0
  | [], _ => rfl
  | [_], _ => rfl
  | [_, _], _ => rfl
  | [_, _, _], _ => rfl
  | _ :: _ :: _ :: _ :: _, h => by simp at h; omega

theorem head_sync_of_ne {b0 : u8} (tl : List u8) (h : b0 ≠ 0xFF) :
    head_sync (b0 :: tl) = false := by
  match tl with
  | [] => rfl
  | [_] => rfl
  | [_, _] => rfl
  | _ :: _ :: _ :: _ => simp [head_sync, h]

theorem first_sync_cons_of_ne {b0 : u8} (tl : List u8) (h : b0 ≠ 0xFF) :
    first_sync (b0 :: tl) = first_sync tl := by
  rw [first_sync, head_sync_of_ne tl h]
  rfl

theorem first_sync_fail1 (b0 : u8) {b1 : u8} (tl : List u8) (h : state1_test b1 = false) :
    first_sync (b0 :: b1 :: tl) = first_sync (b1 :: tl) := by
  have : head_sync (b0 :: b1 :: tl) = false := by
    match tl with
    | [] => rfl
    | [_] => rfl
    | _ :: _ :: _ => simp [head_sync, h]
  rw [first_sync, this]
  rfl

theorem first_sync_fail2 (b0 b1 : u8) {b2 : u8} (tl : List u8) (h : state2_reject b2 = true) :
    first_sync (b0 :: b1 :: b2 :: tl) = first_sync (b1 :: b2 :: tl) := by
  have : head_sync (b0 :: b1 :: b2 :: tl) = false := by
    match tl with
    | [] => rfl
    | _ :: _ => simp [head_sync, h]
  rw [first_sync, this]
  rfl

theorem first_sync_accept {b1 b2 : u8} (b3 : u8) (tl : List u8)
    (h1 : state1_test b1 = true) (h2 : state2_reject b2 = false) :
    first_sync (0xFF :: b1 :: b2 :: b3 :: tl) = GF_4CC 0xFF b1.val b2.val b3.val := by
  have : head_sync (0xFF :: b1 :: b2 :: b3 :: tl) = true := by simp [head_sync, h1, h2]
  rw [first_sync, this]
  rfl

/-! ## The buffer scanner follows the first accepted window -/

theorem mem_state3_ret (s : Scan) (cur : Nat) (b : u8) (h : s.state = 3)
    (hne : gf_mp3_frame_size ({ s with bytes3 := b } : Scan).word ≠ 0) :
    mem_state3 s cur b = .ret ({ s with bytes3 := b } : Scan).word s.dropped := by
  unfold mem_state3
  rw [if_pos h]
  dsimp only
  rw [if_pos hne]

theorem u8_FF_val : ((0xFF : u8) : Nat) = 0xFF := rfl


theorem mem_loop_fst (rest : List u8) : ∀ (cur : Nat) (s : Scan), scan_inv s →
    (mem_loop rest cur s).1 = first_sync (held s ++ rest) := by
  induction rest with
  | nil =>
    intro cur s hs
    have hlen : (held s ++ []).length < 4 := by
      unfold held
      split <;> simp
    rw [first_sync_short _ hlen]
    rfl
  | cons b rest ih =>
    intro cur s hs
    obtain ⟨state, dropped, c0, c1, c2, c3⟩ := s
    obtain ⟨h3, i0, i1, i2⟩ := hs
    simp only at h3 i0 i1 i2
    interval_cases state
    · -- state 0
      by_cases hb : b = 0xFF
      · simp [mem_loop, mem_state3, mem_state2, mem_state1, mem_state0, hb]
        rw [ih]
        · simp [held]
        · simp [scan_inv]
      · simp [mem_loop, mem_state3, mem_state2, mem_state1, mem_state0, hb]
        rw [ih]
        · simp [held, first_sync_cons_of_ne _ hb]
        · simp [scan_inv]
    · -- state 1
      have e0 : c0 = 0xFF := i0 (by omega)
      subst e0
      by_cases h1 : state1_test b = true
      · simp [mem_loop, mem_state3, mem_state2, mem_state1, mem_state0, h1]
        rw [ih]
        · simp [held]
        · simp [scan_inv, h1]
      · have h1f : state1_test b = false := by simpa using h1
        have hb := ne_FF_of_state1_test_false h1f
        simp [mem_loop, mem_state3, mem_state2, mem_state1, mem_state0, h1f, hb]
        rw [ih]
        · simp [held, first_sync_fail1 _ _ h1f, first_sync_cons_of_ne _ hb]
        · simp [scan_inv]
    · -- state 2
      have e0 : c0 = 0xFF := i0 (by omega)
      have t1 : state1_test c1 = true := i1 (by omega)
      subst e0
      by_cases h2 : state2_reject b = true
      · by_cases hc1 : c1 = 0xFF
        · subst hc1
          by_cases h1 : state1_test b = true
          · simp [mem_loop, mem_state3, mem_state2, mem_state1, mem_state0, h1, h2]
            rw [ih]
            · simp [held, first_sync_fail2 _ _ _ h2]
            · simp [scan_inv, h1]
          · have h1f : state1_test b = false := by simpa using h1
            have hb := ne_FF_of_state1_test_false h1f
            simp [mem_loop, mem_state3, mem_state2, mem_state1, mem_state0, h1f, h2, hb]
            rw [ih]
            · simp [held, first_sync_fail2 _ _ _ h2, first_sync_fail1 _ _ h1f,
                first_sync_cons_of_ne _ hb]
            · simp [scan_inv]
        · by_cases hb : b = 0xFF
          · subst hb
            simp [mem_loop, mem_state3, mem_state2, mem_state1, mem_state0, h2, hc1, state1_test_FF]
            rw [ih]
            · simp [held, first_sync_fail2 _ _ _ h2, first_sync_cons_of_ne _ hc1]
            · simp [scan_inv]
          · simp [mem_loop, mem_state3, mem_state2, mem_state1, mem_state0, h2, hc1, hb]
            rw [ih]
            · simp [held, first_sync_fail2 _ _ _ h2, first_sync_cons_of_ne _ hc1,
                first_sync_cons_of_ne _ hb]
            · simp [scan_inv]
      · have h2f : state2_reject b = false := by simpa using h2
        simp [mem_loop, mem_state3, mem_state2, mem_state1, mem_state0, h2f]
        rw [ih]
        · simp [held]
        · simp [scan_inv, t1, h2f]
    · -- state 3
      have e0 : c0 = 0xFF := i0 (by omega)
      have t1 : state1_test c1 = true := i1 (by omega)
      have t2 : state2_reject c2 = false := i2 (by omega)
      subst e0
      have hfs := (structurally_valid_usable _ (sync_word_structurally_valid c1 c2 b t1 t2)).2.2
      have hne : gf_mp3_frame_size (GF_4CC 0xFF c1.val c2.val b.val) ≠ 0 :=
        Nat.pos_iff_ne_zero.mp (Nat.lt_of_lt_of_le (by decide) hfs)
      have hw : Scan.word ⟨3, dropped, 0xFF, c1, c2, b⟩ = GF_4CC 0xFF c1.val c2.val b.val := by
        simp only [Scan.word, u8_FF_val]
      have hstep : mem_state3 ⟨3, dropped, 0xFF, c1, c2, c3⟩ (cur + 1) b =
          .ret (GF_4CC 0xFF c1.val c2.val b.val) dropped := by
        rw [mem_state3_ret _ _ _ rfl (by rw [hw]; exact hne), hw]
      have hacc := first_sync_accept b rest t1 t2
      rw [mem_loop, hstep]
      simp only [held, List.cons_append, List.nil_append, hacc]


/-! ## Windows by index -/

theorem sync_window_succ (b0 : u8) (tl : List u8) (i : Nat) :
    sync_window (b0 :: tl) (i + 1) ↔ sync_window tl i := by
  simp only [sync_window, List.length_cons, List.getD_cons_succ, Nat.add_right_comm i 1]
  constructor
  · rintro ⟨h, r⟩
    exact ⟨by omega, r⟩
  · rintro ⟨h, r⟩
    exact ⟨by omega, r⟩

theorem window_word_succ (b0 : u8) (tl : List u8) (i : Nat) :
    window_word (b0 :: tl) (i + 1) = window_word tl i := by
  simp only [window_word, List.getD_cons_succ, Nat.add_right_comm i 1]

theorem head_sync_iff : ∀ l : List u8, head_sync l = true ↔ sync_window l 0
  | [] => by simp [head_sync, sync_window]
  | [_] => by simp [head_sync, sync_window]
  | [_, _] => by simp [head_sync, sync_window]
  | [_, _, _] => by simp [head_sync, sync_window]
  | b0 :: b1 :: b2 :: b3 :: tl => by
    simp [head_sync, sync_window, state1_test_iff, state2_reject_iff, and_assoc]

theorem head_word_eq : ∀ l : List u8, 4 ≤ l.length → head_word l = window_word l 0
  | [], h => by simp at h
  | [_], h => by simp at h
  | [_, _], h => by simp at h
  | [_, _, _], h => by simp at h
  | b0 :: b1 :: b2 :: b3 :: tl, _ => by simp [head_word, window_word]

theorem first_sync_of_window (l : List u8) : ∀ i, sync_window l i →
    (∀ j, j < i → ¬ sync_window l j) → first_sync l = window_word l i := by
  induction l with
  | nil =>
    intro i hi
    simp [sync_window] at hi
  | cons b0 tl ih =>
    intro i hi hmin
    by_cases hs : head_sync (b0 :: tl) = true
    · have h0 := (head_sync_iff _).mp hs
      have hi0 : i = 0 := by
        by_contra hne
        exact hmin 0 (Nat.pos_of_ne_zero hne) h0
      subst hi0
      rw [first_sync, if_pos hs, head_word_eq _ (by have := h0.1; omega)]
    · have hi0 : i ≠ 0 := by
        rintro rfl
        exact hs ((head_sync_iff _).mpr hi)
      obtain ⟨k, rfl⟩ := Nat.exists_eq_succ_of_ne_zero hi0
      rw [first_sync, if_neg hs, window_word_succ]
      apply ih k ((sync_window_succ b0 tl k).mp hi)
      intro j hj hw
      exact hmin (j + 1) (by omega) ((sync_window_succ b0 tl j).mpr hw)

theorem first_sync_of_no_window (l : List u8) :
    (∀ i, ¬ sync_window l i) → first_sync l = 0 := by
  induction l with
  | nil => intro _; rfl
  | cons b0 tl ih =>
    intro hno
    have hs : ¬ head_sync (b0 :: tl) = true := fun h => hno 0 ((head_sync_iff _).mp h)
    rw [first_sync, if_neg hs]
    exact ih fun i hi => hno (i + 1) ((sync_window_succ b0 tl i).mpr hi)

theorem window_word_of_sync {l : List u8} {i : Nat} (h : sync_window l i) :
    window_word l i = GF_4CC 0xFF (l.getD (i + 1) 0).val (l.getD (i + 2) 0).val
      (l.getD (i + 3) 0).val := by
  rw [window_word, h.2.1, u8_FF_val]

theorem sync_window_structurally_valid {l : List u8} {i : Nat} (h : sync_window l i) :
    structurally_valid (window_word l i) := by
  rw [window_word_of_sync h]
  exact sync_word_structurally_valid _ _ _ ((state1_test_iff _).mpr h.2.2.1)
    ((state2_reject_iff _).mpr h.2.2.2)

theorem structurally_valid_ne_zero {hdr : Nat} (h : structurally_valid hdr) : hdr ≠ 0 := by
  rintro rfl
  exact absurd h (by decide)

theorem valid_window_iff_sync (l : List u8) (i : Nat) : valid_window l i ↔ sync_window l i := by
  constructor
  · exact fun h => h.1
  · intro h
    have := (structurally_valid_usable _ (sync_window_structurally_valid h)).2.2
    exact ⟨h, Nat.pos_iff_ne_zero.mp (Nat.lt_of_lt_of_le (by decide) this)⟩

theorem gf_mp3_get_next_header_mem_fst (buffer : List u8) :
    (gf_mp3_get_next_header_mem buffer).1 = first_sync buffer := by
  have h := mem_loop_fst buffer 0 Scan.init (by simp [scan_inv, Scan.init])
  simpa [held, Scan.init] using h

/-- Claim C1: `gf_mp3_get_next_header_mem` returns `0` if and only if the
buffer has no valid window, and otherwise returns the big-endian word of the
four bytes at the smallest valid window index. -/
theorem gf_mp3_get_next_header_mem_first_valid (buffer : List u8) :
    ((gf_mp3_get_next_header_mem buffer).1 = 0 ↔ ∀ i, ¬ valid_window buffer i) ∧
    (∀ i, valid_window buffer i → (∀ j, j < i → ¬ valid_window buffer j) →
      (gf_mp3_get_next_header_mem buffer).1 = window_word buffer i) := by
  have hmin : ∀ i, valid_window buffer i → (∀ j, j < i → ¬ valid_window buffer j) →
      (gf_mp3_get_next_header_mem buffer).1 = window_word buffer i := by
    intro i hi hlt
    rw [gf_mp3_get_next_header_mem_fst]
    exact first_sync_of_window buffer i hi.1
      fun j hj hw => hlt j hj ((valid_window_iff_sync buffer j).mpr hw)
  refine ⟨⟨?_, ?_⟩, hmin⟩
  · intro h0 i hi
    have hex : ∃ k, valid_window buffer k := ⟨i, hi⟩
    have hk := Nat.find_spec hex
    have hw := hmin (Nat.find hex) hk (fun j hj => Nat.find_min hex hj)
    rw [h0] at hw
    exact structurally_valid_ne_zero (sync_window_structurally_valid hk.1) hw.symm
  · intro hno
    rw [gf_mp3_get_next_header_mem_fst]
    exact first_sync_of_no_window buffer
      fun i hi => hno i ((valid_window_iff_sync buffer i).mpr hi)


/-- Claim C2, evaluated on the code: on the buffer `FF 00 FF FB 90 00` the
scanner returns the header `0xFFFB9000`, whose first byte is at offset 2, but
writes offset 3, and `3 + 4` exceeds the buffer size 6. -/
theorem gf_mp3_get_next_header_mem_offset_past_header :
    gf_mp3_get_next_header_mem [0xFF, 0x00, 0xFF, 0xFB, 0x90, 0x00] = (0xFFFB9000, 3) ∧
    window_word [0xFF, 0x00, 0xFF, 0xFB, 0x90, 0x00] 2 = 0xFFFB9000 ∧
    window_word [0xFF, 0x00, 0xFF, 0xFB, 0x90, 0x00] 3 ≠ 0xFFFB9000 ∧
    ¬ (3 + 4 ≤ ([0xFF, 0x00, 0xFF, 0xFB, 0x90, 0x00] : List u8).length) := by
  decide

/-- Claim C3, evaluated on the code: the buffer `12 FF 34 FF FB 90 00` is made
of `N = 3` bytes at which no window accepted by the sync automaton starts,
followed by the valid header `0xFFFB9000`; the scanner returns that header but
sets the offset to 4, not 3. -/
theorem gf_mp3_get_next_header_mem_offset_after_non_sync :
    (∀ j, j < 3 → ¬ sync_window [0x12, 0xFF, 0x34, 0xFF, 0xFB, 0x90, 0x00] j) ∧
    valid_window [0x12, 0xFF, 0x34, 0xFF, 0xFB, 0x90, 0x00] 3 ∧
    window_word [0x12, 0xFF, 0x34, 0xFF, 0xFB, 0x90, 0x00] 3 = 0xFFFB9000 ∧
    gf_mp3_get_next_header_mem [0x12, 0xFF, 0x34, 0xFF, 0xFB, 0x90, 0x00] = (0xFFFB9000, 4) := by
  decide

/-! ## The offset when no header is found -/

theorem mem_state3_ret_frame_size {s : Scan} {cur : Nat} {b : u8} {val pos : Nat}
    (h : mem_state3 s cur b = .ret val pos) : gf_mp3_frame_size val ≠ 0 := by
  unfold mem_state3 at h
  split at h
  · dsimp only at h
    split at h
    · rename_i hne
      injection h with hv _
      rw [← hv]
      exact hne
    · exact Step.noConfusion h
  · exact Step.noConfusion h

theorem mem_loop_zero (rest : List u8) : ∀ (cur : Nat) (s : Scan),
    (mem_loop rest cur s).1 = 0 → (mem_loop rest cur s).2 = 0 := by
  induction rest with
  | nil => intro _ _ _; rfl
  | cons b rest ih =>
    intro cur s h
    rw [mem_loop] at h
    rw [mem_loop]
    cases hstep : mem_state3 s (cur + 1) b with
    | ret val pos =>
      rw [hstep] at h
      have hne := mem_state3_ret_frame_size hstep
      have hval : val = 0 := h
      rw [hval] at hne
      exact absurd rfl hne
    | next s1 =>
      rw [hstep] at h
      exact ih _ _ h

theorem first_sync_of_no_FF (l : List u8) (h : ∀ b ∈ l, b ≠ 0xFF) : first_sync l = 0 := by
  induction l with
  | nil => rfl
  | cons b0 tl ih =>
    rw [first_sync_cons_of_ne tl (h b0 (List.mem_cons_self _ _))]
    exact ih fun b hb => h b (List.mem_cons_of_mem _ hb)

/-- Claim C4 as stated fails: on the one-byte buffer `00`, which holds no
`0xFF`, the scanner returns 0 but leaves the offset at 0, not at the number of
bytes `1`. -/
theorem gf_mp3_get_next_header_mem_offset_not_length :
    ¬ ∀ buffer : List u8, (∀ b ∈ buffer, b ≠ 0xFF) →
      gf_mp3_get_next_header_mem buffer = (0, buffer.length) := by
  intro h
  have h1 := h [0x00] (by intro b hb; rw [List.mem_singleton] at hb; rw [hb]; decide)
  exact absurd h1 (by decide)

/-- Claim C4, amended: whenever `gf_mp3_get_next_header_mem` returns 0 the
offset written to `*pos` is 0, the value stored before the loop; in
particular, on a buffer none of whose bytes is `0xFF` the scanner returns 0
and the offset is 0. -/
theorem gf_mp3_get_next_header_mem_offset_zero (buffer : List u8) :
    ((gf_mp3_get_next_header_mem buffer).1 = 0 → (gf_mp3_get_next_header_mem buffer).2 = 0) ∧
    ((∀ b ∈ buffer, b ≠ 0xFF) → gf_mp3_get_next_header_mem buffer = (0, 0)) := by
  have hzero : (gf_mp3_get_next_header_mem buffer).1 = 0 →
      (gf_mp3_get_next_header_mem buffer).2 = 0 := mem_loop_zero buffer 0 Scan.init
  refine ⟨hzero, fun hno => ?_⟩
  have h1 : (gf_mp3_get_next_header_mem buffer).1 = 0 := by
    rw [gf_mp3_get_next_header_mem_fst]
    exact first_sync_of_no_FF buffer hno
  exact Prod.ext h1 (hzero h1)

/-- Witness for claim C4, amended: the buffer `00 12 34`. -/
theorem gf_mp3_get_next_header_mem_offset_zero_witness :
    gf_mp3_get_next_header_mem [0x00, 0x12, 0x34] = (0, 0) :=
  (gf_mp3_get_next_header_mem_offset_zero [0x00, 0x12, 0x34]).2 (by simp)


/-! ## The stream scanner -/

theorem stream_state2_inv (s : Scan) (b : u8) (h : scan_inv s) (h3 : s.state ≠ 3) :
    scan_inv (stream_state2 s b) ∧ (stream_state2 s b).state ≠ 2 := by
  obtain ⟨state, dropped, c0, c1, c2, c3⟩ := s
  obtain ⟨hle, i0, i1, i2⟩ := h
  simp only at hle i0 i1 i2 h3
  unfold stream_state2
  simp only
  by_cases h2 : state = 2
  · subst h2
    have e0 := i0 (by omega)
    have t1 := i1 (by omega)
    by_cases hr : state2_reject b = true
    · by_cases hc : c1 = 0xFF
      · simp [scan_inv, hr, hc, e0]
      · simp [scan_inv, hr, hc]
    · simp [scan_inv, hr, e0, t1]
  · simp only [if_neg h2]
    exact ⟨⟨hle, i0, i1, i2⟩, h2⟩

theorem stream_state1_inv (s : Scan) (b : u8) (h : scan_inv s) :
    scan_inv (stream_state1 s b) := by
  obtain ⟨state, dropped, c0, c1, c2, c3⟩ := s
  obtain ⟨hle, i0, i1, i2⟩ := h
  simp only at hle i0 i1 i2
  unfold stream_state1
  simp only
  by_cases h1 : state = 1
  · subst h1
    have e0 := i0 (by omega)
    by_cases ht : state1_test b = true
    · simp [scan_inv, ht, e0]
    · simp [scan_inv, ht]
  · simp only [if_neg h1]
    exact ⟨hle, i0, i1, i2⟩

theorem stream_state0_inv (s : Scan) (b : u8) (h : scan_inv s) :
    scan_inv (stream_state0 s b) := by
  obtain ⟨state, dropped, c0, c1, c2, c3⟩ := s
  obtain ⟨hle, i0, i1, i2⟩ := h
  simp only at hle i0 i1 i2
  unfold stream_state0
  simp only
  by_cases h0 : state = 0
  · subst h0
    by_cases hb : b = 0xFF
    · simp [scan_inv, hb]
    · by_cases hs : dropped = 0 ∧ state1_test b = true
      · simp [scan_inv, hb, hs, hs.2]
      · simp only [if_neg hb, if_neg hs, if_true]
        simp [scan_inv]
  · simp only [if_neg h0]
    exact ⟨hle, i0, i1, i2⟩

theorem stream_loop_valid (rest : List u8) : ∀ s : Scan, scan_inv s →
    stream_loop rest s = 0 ∨ structurally_valid (stream_loop rest s) := by
  induction rest with
  | nil => intro _ _; exact Or.inl rfl
  | cons b rest ih =>
    intro s hs
    rw [stream_loop]
    by_cases h3 : s.state = 3
    · rw [if_pos h3]
      right
      obtain ⟨_, i0, i1, i2⟩ := hs
      have e0 : s.bytes0 = 0xFF := i0 (by omega)
      simp only [Scan.word, e0, u8_FF_val]
      exact sync_word_structurally_valid _ _ _ (i1 (by omega)) (i2 (by omega))
    · rw [if_neg h3]
      exact ih _ (stream_state0_inv _ b (stream_state1_inv _ b (stream_state2_inv s b hs h3).1))

theorem mem_result_structurally_valid (buffer : List u8)
    (h : (gf_mp3_get_next_header_mem buffer).1 ≠ 0) :
    structurally_valid (gf_mp3_get_next_header_mem buffer).1 := by
  by_cases hex : ∃ k, sync_window buffer k
  · have hk := Nat.find_spec hex
    have hw := first_sync_of_window buffer (Nat.find hex) hk (fun j hj => Nat.find_min hex hj)
    rw [gf_mp3_get_next_header_mem_fst, hw]
    exact sync_window_structurally_valid hk
  · rw [gf_mp3_get_next_header_mem_fst] at h
    exact absurd (first_sync_of_no_window buffer fun i hi => hex ⟨i, hi⟩) h

/-- Claim C6: every nonzero header returned by `gf_mp3_get_next_header` or by
`gf_mp3_get_next_header_mem` is structurally valid: the top 11 bits are all
ones, the version field is not 01, the layer field is not 00, the bitrate
index is neither 0 nor 15 and the sample-rate index is not 3; and a nonzero
header returned by `gf_mp3_get_next_header_mem` has a nonzero
`gf_mp3_frame_size`. -/
theorem accepted_header_structurally_valid :
    (∀ input : List u8, gf_mp3_get_next_header input ≠ 0 →
      structurally_valid (gf_mp3_get_next_header input)) ∧
    (∀ buffer : List u8, (gf_mp3_get_next_header_mem buffer).1 ≠ 0 →
      structurally_valid (gf_mp3_get_next_header_mem buffer).1 ∧
      gf_mp3_frame_size (gf_mp3_get_next_header_mem buffer).1 ≠ 0) := by
  constructor
  · intro input h
    rcases stream_loop_valid input Scan.init (by simp [scan_inv, Scan.init]) with h0 | hv
    · exact absurd h0 h
    · exact hv
  · intro buffer h
    have hv := mem_result_structurally_valid buffer h
    have hfs := (structurally_valid_usable _ hv).2.2
    exact ⟨hv, Nat.pos_iff_ne_zero.mp (Nat.lt_of_lt_of_le (by decide) hfs)⟩

/-- Witness for claim C6: the stream `FB 90 00` and the buffer
`FF 00 FF FB 90 00`, both giving the header `0xFFFB9000`. -/
theorem accepted_header_structurally_valid_witness :
    structurally_valid (gf_mp3_get_next_header [0xFB, 0x90, 0x00]) ∧
    (structurally_valid (gf_mp3_get_next_header_mem [0xFF, 0x00, 0xFF, 0xFB, 0x90, 0x00]).1 ∧
      gf_mp3_frame_size (gf_mp3_get_next_header_mem [0xFF, 0x00, 0xFF, 0xFB, 0x90, 0x00]).1
        ≠ 0) :=
  ⟨accepted_header_structurally_valid.1 [0xFB, 0x90, 0x00] (by decide),
    accepted_header_structurally_valid.2 [0xFF, 0x00, 0xFF, 0xFB, 0x90, 0x00] (by decide)⟩


/-- Claim C5 as stated fails: the stream `FB 90 00` holds no four consecutive
bytes accepted by the sync automaton, yet `gf_mp3_get_next_header` returns
`0xFFFB9000`: the byte `FB`, read in state 0, is not dropped but becomes the
second byte of the returned header. -/
theorem gf_mp3_get_next_header_not_first_sync :
    ¬ ∀ input : List u8,
      (gf_mp3_get_next_header input = 0 ↔ ∀ i, ¬ sync_window input i) ∧
      (∀ i, sync_window input i → (∀ j, j < i → ¬ sync_window input j) →
        gf_mp3_get_next_header input = window_word input i) := by
  intro h
  have h0 : gf_mp3_get_next_header [0xFB, 0x90, 0x00] = 0 :=
    (h [0xFB, 0x90, 0x00]).1.mpr fun i hi => by
      have := hi.1
      simp at this
  exact absurd h0 (by decide)

/-! ## Rejection of reserved codes, window size, arithmetic range -/

/-- Claim C11: for every header whose sample-rate index field (bits 11..10)
equals 3, `gf_mp3_sampling_rate` returns 0, whatever the version and the
other fields are. -/
theorem gf_mp3_sampling_rate_index_three (hdr : Nat) (h : (hdr >>> 10) &&& 0x3 = 3) :
    gf_mp3_sampling_rate hdr = 0 := by
  unfold gf_mp3_sampling_rate
  simp only [h]

/-- Witness for claim C11: the header `0xFFFB9C00`, sample-rate index 3. -/
theorem gf_mp3_sampling_rate_index_three_witness : gf_mp3_sampling_rate 0xFFFB9C00 = 0 :=
  gf_mp3_sampling_rate_index_three 0xFFFB9C00 (by decide)

theorem bit_rate_in_table_core :
    for_all_core (fun h => (gf_mp3_bit_rate_checked h).isSome = true) := by
  decide!

/-- Claim C12: for every header whose bitrate index field (bits 15..12)
equals 15, `gf_mp3_bit_rate` returns 0, whatever the version and the layer
are; and for every header the lookup stays inside the 5 rows and 15 columns
of `bitrate_table` (the fallible read never fails). -/
theorem gf_mp3_bit_rate_index_fifteen :
    (∀ hdr : Nat, (hdr >>> 12) &&& 0xF = 15 → gf_mp3_bit_rate hdr = 0) ∧
    (∀ hdr : Nat, (gf_mp3_bit_rate_checked hdr).isSome = true) ∧
    (∀ lidx idx : Nat, (bitrate_table_at lidx idx).isSome = true ↔ lidx < 5 ∧ idx < 15) := by
  refine ⟨?_, ?_, ?_⟩
  · intro hdr h
    unfold gf_mp3_bit_rate gf_mp3_bit_rate_checked
    simp only [h]
    split
    · rfl
    · split
      · rfl
      · rfl
  · intro hdr
    have hc := for_all_core_apply bit_rate_in_table_core hdr
    simp only [bit_rate_checked_core] at hc
    exact hc
  · intro lidx idx
    constructor
    · intro h
      by_contra hne
      have hcases : 5 ≤ lidx ∨ (lidx < 5 ∧ 15 ≤ idx) := by omega
      rcases hcases with h5 | ⟨h5, h15⟩
      · have : bitrate_table_at lidx idx = none := by
          unfold bitrate_table_at
          rw [List.get?_eq_none.mpr (by simpa [bitrate_table] using h5)]
        rw [this] at h
        exact Bool.noConfusion h
      · have : bitrate_table_at lidx idx = none := by
          interval_cases lidx <;>
            · unfold bitrate_table_at bitrate_table
              simp only [List.get?]
              exact List.get?_eq_none.mpr (by simpa using h15)
        rw [this] at h
        exact Bool.noConfusion h
    · rintro ⟨h5, h15⟩
      interval_cases lidx <;> interval_cases idx <;> rfl

/-- Witness for claim C12: the header `0xFFFBF000`, bitrate index 15. -/
theorem gf_mp3_bit_rate_index_fifteen_witness : gf_mp3_bit_rate 0xFFFBF000 = 0 :=
  gf_mp3_bit_rate_index_fifteen.1 0xFFFBF000 (by decide)

/-- Claim C13: for every header, `gf_mp3_window_size` is 384 when the layer
is I, 1152 when it is II, 1152 when it is III under MPEG-1 and 576 when it is
III under MPEG-2 or MPEG-2.5; this covers every non-reserved version with
every layer in {I, II, III}. -/
theorem gf_mp3_window_size_table (hdr : Nat) :
    (gf_mp3_layer hdr = 1 → gf_mp3_window_size hdr = 384) ∧
    (gf_mp3_layer hdr = 2 → gf_mp3_window_size hdr = 1152) ∧
    (gf_mp3_layer hdr = 3 → gf_mp3_version hdr = 3 → gf_mp3_window_size hdr = 1152) ∧
    (gf_mp3_layer hdr = 3 → (gf_mp3_version hdr = 2 ∨ gf_mp3_version hdr = 0) →
      gf_mp3_window_size hdr = 576) := by
  unfold gf_mp3_window_size
  refine ⟨?_, ?_, ?_, ?_⟩
  · intro h1
    simp [h1]
  · intro h2
    simp [h2]
  · intro h3 hv3
    simp [h3, hv3]
  · intro h3 hv2
    rcases hv2 with h | h <;> simp [h3, h]

/-- Witness for claim C13: the MPEG-1 Layer III header `0xFFFB9000` has
window size 1152. -/
theorem gf_mp3_window_size_table_witness : gf_mp3_window_size 0xFFFB9000 = 1152 :=
  (gf_mp3_window_size_table 0xFFFB9000).2.2.1 (by decide) (by decide)

theorem frame_size_range_core :
    for_all_core (fun h =>
      12 * gf_mp3_bit_rate h < 2 ^ 32 ∧
      (if gf_mp3_layer h = 3 ∧ ¬ (gf_mp3_version h &&& 1 ≠ 0) then 72 else 144)
        * gf_mp3_bit_rate h < 2 ^ 32 ∧
      gf_mp3_frame_size_u32 h ≤ 2881 ∧
      gf_mp3_frame_size h = gf_mp3_frame_size_u32 h ∧
      gf_mp3_frame_size_u32 h =
        if gf_mp3_sampling_rate h = 0 ∨ gf_mp3_bit_rate h = 0 then 0
        else if gf_mp3_layer h = 1 then
          (12 * gf_mp3_bit_rate h / gf_mp3_sampling_rate h
            + (if (h >>> 9) &&& 0x1 ≠ 0 then 1 else 0)) * 4
        else
          (if gf_mp3_layer h = 3 ∧ ¬ (gf_mp3_version h &&& 1 ≠ 0) then 72 else 144)
            * gf_mp3_bit_rate h / gf_mp3_sampling_rate h
            + (if (h >>> 9) &&& 0x1 ≠ 0 then 1 else 0)) := by
  decide!

/-- Claim C19: for every header, the products `12 * bitrate` and
`slots_per_frame * bitrate` of `gf_mp3_frame_size` are below `2^32`, the
frame size before the cast to `u16` is at most 2881, the cast leaves it
unchanged, and the `u32` computation gives the same value as the same
expression over the unbounded naturals. -/
theorem gf_mp3_frame_size_no_wrap (hdr : Nat) :
    12 * gf_mp3_bit_rate hdr < 2 ^ 32 ∧
    (if gf_mp3_layer hdr = 3 ∧ ¬ (gf_mp3_version hdr &&& 1 ≠ 0) then 72 else 144)
      * gf_mp3_bit_rate hdr < 2 ^ 32 ∧
    gf_mp3_frame_size_u32 hdr ≤ 2881 ∧
    gf_mp3_frame_size hdr = gf_mp3_frame_size_u32 hdr ∧
    gf_mp3_frame_size_u32 hdr =
      if gf_mp3_sampling_rate hdr = 0 ∨ gf_mp3_bit_rate hdr = 0 then 0
      else if gf_mp3_layer hdr = 1 then
        (12 * gf_mp3_bit_rate hdr / gf_mp3_sampling_rate hdr
          + (if (hdr >>> 9) &&& 0x1 ≠ 0 then 1 else 0)) * 4
      else
        (if gf_mp3_layer hdr = 3 ∧ ¬ (gf_mp3_version hdr &&& 1 ≠ 0) then 72 else 144)
          * gf_mp3_bit_rate hdr / gf_mp3_sampling_rate hdr
          + (if (hdr >>> 9) &&& 0x1 ≠ 0 then 1 else 0) := by
  have h := for_all_core_apply frame_size_range_core hdr
  simp only [frame_size_core, frame_size_u32_core, sampling_rate_core, bit_rate_core,
    layer_core, version_core, core_field_9] at h
  exact h

/-! ## The frame-size rejection branch is dead -/

theorem mem_state3_next_inv {s s1 : Scan} {cur : Nat} {b : u8}
    (h : mem_state3 s cur b = .next s1) (hs : scan_inv s) :
    scan_inv s1 ∧ s1.state ≠ 3 := by
  unfold mem_state3 at h
  split at h
  · dsimp only at h
    split at h
    · exact Step.noConfusion h
    · injection h with h
      subst h
      simp [scan_inv]
  · rename_i h3
    injection h with h
    subst h
    exact ⟨hs, h3⟩

theorem mem_state2_inv (s : Scan) (cur : Nat) (b : u8) (h : scan_inv s) (h3 : s.state ≠ 3) :
    scan_inv (mem_state2 s cur b) := by
  obtain ⟨state, dropped, c0, c1, c2, c3⟩ := s
  obtain ⟨hle, i0, i1, i2⟩ := h
  simp only at hle i0 i1 i2 h3
  unfold mem_state2
  simp only
  by_cases h2 : state = 2
  · subst h2
    have e0 := i0 (by omega)
    have t1 := i1 (by omega)
    by_cases hr : state2_reject b = true
    · by_cases hc : c1 = 0xFF
      · simp [scan_inv, hr, hc, e0]
      · simp [scan_inv, hr, hc]
    · simp [scan_inv, hr, e0, t1]
  · simp only [if_neg h2]
    exact ⟨hle, i0, i1, i2⟩

theorem mem_state1_inv (s : Scan) (cur : Nat) (b : u8) (h : scan_inv s) :
    scan_inv (mem_state1 s cur b) := by
  obtain ⟨state, dropped, c0, c1, c2, c3⟩ := s
  obtain ⟨hle, i0, i1, i2⟩ := h
  simp only at hle i0 i1 i2
  unfold mem_state1
  simp only
  by_cases h1 : state = 1
  · subst h1
    have e0 := i0 (by omega)
    by_cases ht : state1_test b = true
    · simp [scan_inv, ht, e0]
    · simp [scan_inv, ht]
  · simp only [if_neg h1]
    exact ⟨hle, i0, i1, i2⟩

theorem mem_state0_inv (s : Scan) (b : u8) (h : scan_inv s) :
    scan_inv (mem_state0 s b) := by
  obtain ⟨state, dropped, c0, c1, c2, c3⟩ := s
  obtain ⟨hle, i0, i1, i2⟩ := h
  simp only at hle i0 i1 i2
  unfold mem_state0
  simp only
  by_cases h0 : state = 0
  · subst h0
    by_cases hb : b = 0xFF
    · simp [scan_inv, hb]
    · simp [scan_inv, hb]
  · simp only [if_neg h0]
    exact ⟨hle, i0, i1, i2⟩

theorem mem_iterations_inv (rest : List u8) : ∀ (cur : Nat) (s : Scan), scan_inv s →
    ∀ it ∈ mem_iterations rest cur s, scan_inv it.1 := by
  induction rest with
  | nil =>
    intro _ _ _ it hit
    simp [mem_iterations] at hit
  | cons b rest ih =>
    intro cur s hs it hit
    rw [mem_iterations, List.mem_cons] at hit
    rcases hit with rfl | hit
    · exact hs
    · cases hstep : mem_state3 s (cur + 1) b with
      | ret val pos =>
        rw [hstep] at hit
        simp at hit
      | next s1 =>
        rw [hstep] at hit
        have h1 := mem_state3_next_inv hstep hs
        exact ih _ _ (mem_state0_inv _ b (mem_state1_inv _ _ b
          (mem_state2_inv s1 _ b h1.1 h1.2))) it hit

theorem scan_inv_frame_size (s : Scan) (b : u8) (hs : scan_inv s) (h3 : s.state = 3) :
    gf_mp3_frame_size ({ s with bytes3 := b } : Scan).word ≠ 0 := by
  obtain ⟨_, i0, i1, i2⟩ := hs
  have e0 : s.bytes0 = 0xFF := i0 (by omega)
  simp only [Scan.word, e0, u8_FF_val]
  have hfs := (structurally_valid_usable _
    (sync_word_structurally_valid s.bytes1 s.bytes2 b (i1 (by omega)) (i2 (by omega)))).2.2
  exact Nat.pos_iff_ne_zero.mp (Nat.lt_of_lt_of_le (by decide) hfs)

/-- Claim C16: four bytes `b0 b1 b2 b3` with `b0 = 0xFF`, `b1` passing the
state-1 test and `b2` passing the state-2 test compose a header word with
nonzero `gf_mp3_bit_rate`, nonzero `gf_mp3_sampling_rate` and
`gf_mp3_frame_size` at least 24; and for every buffer, no iteration of the
loop of `gf_mp3_get_next_header_mem` runs the frame-size rejection branch of
state 3. -/
theorem structural_validity_gives_frame_size :
    (∀ b0 b1 b2 b3 : u8, b0 = 0xFF → passes_state1 b1 → passes_state2 b2 →
      gf_mp3_bit_rate (GF_4CC b0.val b1.val b2.val b3.val) ≠ 0 ∧
      gf_mp3_sampling_rate (GF_4CC b0.val b1.val b2.val b3.val) ≠ 0 ∧
      24 ≤ gf_mp3_frame_size (GF_4CC b0.val b1.val b2.val b3.val)) ∧
    (∀ buffer : List u8, ∀ it ∈ mem_iterations buffer 0 Scan.init,
      ¬ runs_rejection_branch it) := by
  constructor
  · intro b0 b1 b2 b3 h0 h1 h2
    rw [h0, u8_FF_val]
    exact structurally_valid_usable _ (sync_word_structurally_valid b1 b2 b3
      ((state1_test_iff b1).mpr h1) ((state2_reject_iff b2).mpr h2))
  · intro buffer it hit hrej
    have hinv := mem_iterations_inv buffer 0 Scan.init (by simp [scan_inv, Scan.init]) it hit
    exact scan_inv_frame_size it.1 it.2 hinv hrej.1 hrej.2

/-- Witness for claim C16: the bytes `FF FB 90 00`. -/
theorem structural_validity_gives_frame_size_witness :
    gf_mp3_bit_rate (GF_4CC (0xFF : u8).val (0xFB : u8).val (0x90 : u8).val (0x00 : u8).val)
      ≠ 0 ∧
    gf_mp3_sampling_rate
      (GF_4CC (0xFF : u8).val (0xFB : u8).val (0x90 : u8).val (0x00 : u8).val) ≠ 0 ∧
    24 ≤ gf_mp3_frame_size
      (GF_4CC (0xFF : u8).val (0xFB : u8).val (0x90 : u8).val (0x00 : u8).val) :=
  structural_validity_gives_frame_size.1 0xFF 0xFB 0x90 0x00 rfl (by decide) (by decide)

/-! ## Bytes after the accepted header do not matter -/

theorem mem_loop_append (rest tail : List u8) : ∀ (cur : Nat) (s : Scan),
    (mem_loop rest cur s).1 ≠ 0 → mem_loop (rest ++ tail) cur s = mem_loop rest cur s := by
  induction rest with
  | nil =>
    intro cur s h
    exact absurd rfl h
  | cons b rest ih =>
    intro cur s h
    rw [List.cons_append, mem_loop, mem_loop]
    rw [mem_loop] at h
    cases hstep : mem_state3 s (cur + 1) b with
    | ret val pos => rfl
    | next s1 =>
      rw [hstep] at h
      exact ih _ _ h

/-- Claim C20: when `gf_mp3_get_next_header_mem` returns a nonzero header `h`
with offset `p` on a buffer `B`, it returns the same header and the same
offset on `B` followed by any bytes `S`. -/
theorem gf_mp3_get_next_header_mem_append (B S : List u8)
    (h : (gf_mp3_get_next_header_mem B).1 ≠ 0) :
    gf_mp3_get_next_header_mem (B ++ S) = gf_mp3_get_next_header_mem B :=
  mem_loop_append B S 0 Scan.init h

/-- Witness for claim C20: the buffer `00 FF FB 90 00` followed by `FF FB`. -/
theorem gf_mp3_get_next_header_mem_append_witness :
    gf_mp3_get_next_header_mem ([0x00, 0xFF, 0xFB, 0x90, 0x00] ++ [0xFF, 0xFB]) =
      gf_mp3_get_next_header_mem [0x00, 0xFF, 0xFB, 0x90, 0x00] :=
  gf_mp3_get_next_header_mem_append [0x00, 0xFF, 0xFB, 0x90, 0x00] [0xFF, 0xFB] (by decide)

/-! ## The offset after a prefix free of `0xFF` -/

theorem state1_test_of_fields : ∀ b : u8,
    b.val / 32 = 7 ∧ b.val / 8 % 4 ≠ 1 ∧ b.val / 2 % 4 ≠ 0 → state1_test b = true := by
  decide!

theorem state2_reject_of_fields : ∀ b : u8,
    b.val / 16 ≠ 0 ∧ b.val / 16 ≠ 15 ∧ b.val / 4 % 4 ≠ 3 → state2_reject b = false := by
  decide!

theorem structurally_valid_bytes (b0 b1 b2 b3 : u8)
    (h : structurally_valid (GF_4CC b0.val b1.val b2.val b3.val)) :
    b0 = 0xFF ∧ state1_test b1 = true ∧ state2_reject b2 = false := by
  have l0 := b0.isLt
  have l1 := b1.isLt
  have l2 := b2.isLt
  have l3 := b3.isLt
  rw [GF_4CC_eq _ _ _ _ l1 l2 l3] at h
  unfold structurally_valid at h
  rw [shr_and_3, shr_and_3, shr_and_3, shr_and_15, Nat.shiftRight_eq_div_pow] at h
  refine ⟨?_, ?_, ?_⟩
  · apply Fin.ext
    rw [u8_FF_val]
    omega
  · apply state1_test_of_fields
    omega
  · apply state2_reject_of_fields
    omega

theorem mem_loop_skip_no_FF (pre : List u8) (hpre : ∀ x ∈ pre, x ≠ 0xFF) :
    ∀ (rest : List u8) (cur d : Nat) (c0 c1 c2 c3 : u8), d + pre.length < 2 ^ 32 →
      mem_loop (pre ++ rest) cur ⟨0, d, c0, c1, c2, c3⟩ =
        mem_loop rest (cur + pre.length) ⟨0, d + pre.length, c0, c1, c2, c3⟩ := by
  induction pre with
  | nil =>
    intro rest cur d c0 c1 c2 c3 _
    rfl
  | cons x pre ih =>
    intro rest cur d c0 c1 c2 c3 hlen
    have hx : x ≠ 0xFF := hpre x (List.mem_cons_self _ _)
    simp only [List.length_cons] at hlen
    have hwrap : (d + 1) % 4294967296 = d + 1 := Nat.mod_eq_of_lt (by omega)
    have hstep : mem_loop (x :: pre ++ rest) cur ⟨0, d, c0, c1, c2, c3⟩ =
        mem_loop (pre ++ rest) (cur + 1) ⟨0, d + 1, c0, c1, c2, c3⟩ := by
      simp [mem_loop, mem_state3, mem_state2, mem_state1, mem_state0, hx, hwrap]
    rw [hstep, ih (fun y hy => hpre y (List.mem_cons_of_mem _ hy)) rest (cur + 1) (d + 1)
      c0 c1 c2 c3 (by omega)]
    simp only [List.length_cons]
    rw [Nat.add_assoc cur, Nat.add_comm 1, Nat.add_assoc d, Nat.add_comm 1]

theorem mem_loop_step0_FF (rest : List u8) (cur d : Nat) (c0 c1 c2 c3 : u8) :
    mem_loop (0xFF :: rest) cur ⟨0, d, c0, c1, c2, c3⟩ =
      mem_loop rest (cur + 1) ⟨1, d, 0xFF, c1, c2, c3⟩ := by
  rw [mem_loop]
  simp [mem_state3, mem_state2, mem_state1, mem_state0]

theorem mem_loop_step1_accept (b1 : u8) (rest : List u8) (cur d : Nat) (c0 c1 c2 c3 : u8)
    (t1 : state1_test b1 = true) :
    mem_loop (b1 :: rest) cur ⟨1, d, c0, c1, c2, c3⟩ =
      mem_loop rest (cur + 1) ⟨2, d, c0, b1, c2, c3⟩ := by
  rw [mem_loop]
  simp [mem_state3, mem_state2, mem_state1, mem_state0, t1]

theorem mem_loop_step2_accept (b2 : u8) (rest : List u8) (cur d : Nat) (c0 c1 c2 c3 : u8)
    (t2 : state2_reject b2 = false) :
    mem_loop (b2 :: rest) cur ⟨2, d, c0, c1, c2, c3⟩ =
      mem_loop rest (cur + 1) ⟨3, d, c0, c1, b2, c3⟩ := by
  rw [mem_loop]
  simp [mem_state3, mem_state2, mem_state1, mem_state0, t2]

theorem mem_loop_header (b1 b2 b3 : u8) (tail : List u8) (cur d : Nat) (c0 c1 c2 c3 : u8)
    (t1 : state1_test b1 = true) (t2 : state2_reject b2 = false) :
    mem_loop (0xFF :: b1 :: b2 :: b3 :: tail) cur ⟨0, d, c0, c1, c2, c3⟩ =
      (GF_4CC 0xFF b1.val b2.val b3.val, d) := by
  have hfs := (structurally_valid_usable _ (sync_word_structurally_valid b1 b2 b3 t1 t2)).2.2
  have hne : gf_mp3_frame_size (GF_4CC 0xFF b1.val b2.val b3.val) ≠ 0 :=
    Nat.pos_iff_ne_zero.mp (Nat.lt_of_lt_of_le (by decide) hfs)
  have hw : Scan.word ⟨3, d, 0xFF, b1, b2, b3⟩ = GF_4CC 0xFF b1.val b2.val b3.val := by
    simp only [Scan.word, u8_FF_val]
  have hstep : mem_state3 ⟨3, d, 0xFF, b1, b2, c3⟩ (cur + 1 + 1 + 1 + 1) b3 =
      .ret (GF_4CC 0xFF b1.val b2.val b3.val) d := by
    rw [mem_state3_ret _ _ _ rfl (by rw [hw]; exact hne), hw]
  rw [mem_loop_step0_FF, mem_loop_step1_accept _ _ _ _ _ _ _ _ t1,
    mem_loop_step2_accept _ _ _ _ _ _ _ _ t2, mem_loop, hstep]

theorem mem_header_after_no_FF (pre tail : List u8) (b1 b2 b3 : u8)
    (hpre : ∀ x ∈ pre, x ≠ 0xFF) (t1 : state1_test b1 = true)
    (t2 : state2_reject b2 = false) (hlen : pre.length < 2 ^ 32) :
    gf_mp3_get_next_header_mem (pre ++ 0xFF :: b1 :: b2 :: b3 :: tail) =
      (GF_4CC 0xFF b1.val b2.val b3.val, pre.length) := by
  unfold gf_mp3_get_next_header_mem Scan.init
  rw [mem_loop_skip_no_FF pre hpre _ 0 0 0 0 0 0 (by omega), mem_loop_header _ _ _ _ _ _ _ _ _ _ t1 t2]
  simp

/-- Claim C18: on a buffer made of `N` bytes none of which is `0xFF`, followed
by a structurally valid 4-byte header and then any bytes,
`gf_mp3_get_next_header_mem` returns that header and sets the offset to
exactly `N` (the buffer size being a `u32`). -/
theorem gf_mp3_get_next_header_mem_after_no_FF (pre tail : List u8) (b0 b1 b2 b3 : u8)
    (hpre : ∀ x ∈ pre, x ≠ 0xFF)
    (hvalid : structurally_valid (GF_4CC b0.val b1.val b2.val b3.val))
    (hsize : (pre ++ b0 :: b1 :: b2 :: b3 :: tail).length < 2 ^ 32) :
    gf_mp3_get_next_header_mem (pre ++ b0 :: b1 :: b2 :: b3 :: tail) =
      (GF_4CC b0.val b1.val b2.val b3.val, pre.length) := by
  obtain ⟨e0, t1, t2⟩ := structurally_valid_bytes b0 b1 b2 b3 hvalid
  subst e0
  rw [List.length_append] at hsize
  rw [mem_header_after_no_FF pre tail b1 b2 b3 hpre t1 t2 (by omega), u8_FF_val]

/-- Witness for claim C18: the prefix `12 34 56`, the header `FF FB 90 00` and
the tail `FF`. -/
theorem gf_mp3_get_next_header_mem_after_no_FF_witness :
    gf_mp3_get_next_header_mem
        ([0x12, 0x34, 0x56] ++ (0xFF : u8) :: 0xFB :: 0x90 :: 0x00 :: [0xFF]) =
      (GF_4CC (0xFF : u8).val (0xFB : u8).val (0x90 : u8).val (0x00 : u8).val,
        ([0x12, 0x34, 0x56] : List u8).length) :=
  gf_mp3_get_next_header_mem_after_no_FF [0x12, 0x34, 0x56] [0xFF] 0xFF 0xFB 0x90 0x00
    (by simp) (by decide) (by decide)

/-! ## The offset is the start of the header or one more -/

theorem mem_loop_next (b : u8) (rest : List u8) (cur : Nat) (s : Scan) (h3 : s.state ≠ 3) :
    mem_loop (b :: rest) cur s =
      mem_loop rest (cur + 1)
        (mem_state0 (mem_state1 (mem_state2 s (cur + 1) b) (cur + 1) b) b) ∧
    mem_loop_cur (b :: rest) cur s =
      mem_loop_cur rest (cur + 1)
        (mem_state0 (mem_state1 (mem_state2 s (cur + 1) b) (cur + 1) b) b) := by
  have hstep : mem_state3 s (cur + 1) b = .next s := by
    unfold mem_state3
    rw [if_neg h3]
  rw [mem_loop, mem_loop_cur, hstep]
  exact ⟨rfl, rfl⟩

theorem window_word_append_left (front : List u8) (a0 a1 a2 a3 : u8) (rest : List u8) :
    window_word (front ++ a0 :: a1 :: a2 :: a3 :: rest) front.length =
      GF_4CC a0.val a1.val a2.val a3.val := by
  induction front with
  | nil => simp [window_word]
  | cons x front ih =>
    rw [List.cons_append, List.length_cons, window_word_succ]
    exact ih

theorem mem_loop_trace (rest : List u8) : ∀ (buffer front : List u8) (cur : Nat) (s : Scan),
    scan_inv s → buffer = front ++ held s ++ rest → cur = front.length + s.state →
    (s.dropped = front.length % 2 ^ 32 ∨ s.dropped = (front.length + 1) % 2 ^ 32) →
    buffer.length < 2 ^ 32 → (mem_loop rest cur s).1 ≠ 0 →
    ∃ k, mem_loop_cur rest cur s = k + 4 ∧
      (mem_loop rest cur s).1 = window_word buffer k ∧
      ((mem_loop rest cur s).2 = k ∨ (mem_loop rest cur s).2 = k + 1) := by
  induction rest with
  | nil =>
    intro buffer front cur s _ _ _ _ _ h
    exact absurd rfl h
  | cons b rest ih =>
    intro buffer front cur s hs hbuf hcur hd hlen h
    obtain ⟨state, dropped, c0, c1, c2, c3⟩ := s
    obtain ⟨h3, i0, i1, i2⟩ := hs
    simp only at h3 i0 i1 i2 hcur hd
    interval_cases state
    · -- state 0
      obtain ⟨e1, e2⟩ := mem_loop_next b rest cur ⟨0, dropped, c0, c1, c2, c3⟩ (by simp)
      rw [e1] at h ⊢
      rw [e2]
      by_cases hb : b = 0xFF
      · subst hb
        have hs1 : mem_state0 (mem_state1 (mem_state2 ⟨0, dropped, c0, c1, c2, c3⟩ (cur + 1)
            0xFF) (cur + 1) 0xFF) 0xFF = ⟨1, dropped, 0xFF, c1, c2, c3⟩ := by
          simp [mem_state2, mem_state1, mem_state0]
        rw [hs1] at h ⊢
        exact ih buffer front (cur + 1) _ (by simp [scan_inv]) (by simp [hbuf, held])
          (by simp only; omega) hd hlen h
      · have hs1 : mem_state0 (mem_state1 (mem_state2 ⟨0, dropped, c0, c1, c2, c3⟩ (cur + 1)
            b) (cur + 1) b) b = ⟨0, (dropped + 1) % 2 ^ 32, c0, c1, c2, c3⟩ := by
          simp [mem_state2, mem_state1, mem_state0, hb]
        rw [hs1] at h ⊢
        exact ih buffer (front ++ [b]) (cur + 1) _ (by simp [scan_inv]) (by simp [hbuf, held])
          (by simp only [List.length_append, List.length_singleton]; omega)
          (by simp only [List.length_append, List.length_singleton]; omega) hlen h
    · -- state 1
      have e0 : c0 = 0xFF := i0 (by omega)
      subst e0
      obtain ⟨e1, e2⟩ := mem_loop_next b rest cur ⟨1, dropped, 0xFF, c1, c2, c3⟩ (by simp)
      rw [e1] at h ⊢
      rw [e2]
      have hbl : buffer.length = front.length + 1 + (rest.length + 1) := by
        simp [hbuf, held]
        omega
      by_cases h1 : state1_test b = true
      · have hs1 : mem_state0 (mem_state1 (mem_state2 ⟨1, dropped, 0xFF, c1, c2, c3⟩ (cur + 1)
            b) (cur + 1) b) b = ⟨2, dropped, 0xFF, b, c2, c3⟩ := by
          simp [mem_state2, mem_state1, mem_state0, h1]
        rw [hs1] at h ⊢
        exact ih buffer front (cur + 1) _ (by simp [scan_inv, h1]) (by simp [hbuf, held])
          (by simp only; omega) hd hlen h
      · have h1f : state1_test b = false := by simpa using h1
        have hb := ne_FF_of_state1_test_false h1f
        have hs1 : mem_state0 (mem_state1 (mem_state2 ⟨1, dropped, 0xFF, c1, c2, c3⟩ (cur + 1)
            b) (cur + 1) b) b = ⟨0, (cur + 1 + 1) % 2 ^ 32, 0xFF, c1, c2, c3⟩ := by
          simp [mem_state2, mem_state1, mem_state0, h1f, hb]
        rw [hs1] at h ⊢
        exact ih buffer (front ++ [0xFF, b]) (cur + 1) _ (by simp [scan_inv])
          (by simp [hbuf, held])
          (by simp only [List.length_append, List.length_cons, List.length_nil]; omega)
          (by simp only [List.length_append, List.length_cons, List.length_nil]; omega) hlen h
    · -- state 2
      have e0 : c0 = 0xFF := i0 (by omega)
      have t1 : state1_test c1 = true := i1 (by omega)
      subst e0
      obtain ⟨e1, e2⟩ := mem_loop_next b rest cur ⟨2, dropped, 0xFF, c1, c2, c3⟩ (by simp)
      rw [e1] at h ⊢
      rw [e2]
      have hbl : buffer.length = front.length + 2 + (rest.length + 1) := by
        simp [hbuf, held]
        omega
      by_cases h2 : state2_reject b = true
      · by_cases hc1 : c1 = 0xFF
        · subst hc1
          by_cases h1 : state1_test b = true
          · have hs1 : mem_state0 (mem_state1 (mem_state2 ⟨2, dropped, 0xFF, 0xFF, c2, c3⟩
                (cur + 1) b) (cur + 1) b) b =
                ⟨2, (dropped + 1) % 2 ^ 32, 0xFF, b, c2, c3⟩ := by
              simp [mem_state2, mem_state1, mem_state0, h1, h2]
            rw [hs1] at h ⊢
            exact ih buffer (front ++ [0xFF]) (cur + 1) _ (by simp [scan_inv, h1])
              (by simp [hbuf, held])
              (by simp only [List.length_append, List.length_cons, List.length_nil]; omega)
              (by simp only [List.length_append, List.length_cons, List.length_nil]; omega)
              hlen h
          · have h1f : state1_test b = false := by simpa using h1
            have hb := ne_FF_of_state1_test_false h1f
            have hs1 : mem_state0 (mem_state1 (mem_state2 ⟨2, dropped, 0xFF, 0xFF, c2, c3⟩
                (cur + 1) b) (cur + 1) b) b =
                ⟨0, (cur + 1 + 1) % 2 ^ 32, 0xFF, 0xFF, c2, c3⟩ := by
              simp [mem_state2, mem_state1, mem_state0, h1f, h2, hb]
            rw [hs1] at h ⊢
            exact ih buffer (front ++ [0xFF, 0xFF, b]) (cur + 1) _ (by simp [scan_inv])
              (by simp [hbuf, held])
              (by simp only [List.length_append, List.length_cons, List.length_nil]; omega)
              (by simp only [List.length_append, List.length_cons, List.length_nil]; omega)
              hlen h
        · by_cases hb : b = 0xFF
          · subst hb
            have hs1 : mem_state0 (mem_state1 (mem_state2 ⟨2, dropped, 0xFF, c1, c2, c3⟩
                (cur + 1) 0xFF) (cur + 1) 0xFF) 0xFF = ⟨1, cur + 1, 0xFF, c1, c2, c3⟩ := by
              simp [mem_state2, mem_state1, mem_state0, h2, hc1]
            rw [hs1] at h ⊢
            exact ih buffer (front ++ [0xFF, c1]) (cur + 1) _ (by simp [scan_inv])
              (by simp [hbuf, held])
              (by simp only [List.length_append, List.length_cons, List.length_nil]; omega)
              (by simp only [List.length_append, List.length_cons, List.length_nil]; omega)
              hlen h
          · have hs1 : mem_state0 (mem_state1 (mem_state2 ⟨2, dropped, 0xFF, c1, c2, c3⟩
                (cur + 1) b) (cur + 1) b) b =
                ⟨0, (cur + 1 + 1) % 2 ^ 32, 0xFF, c1, c2, c3⟩ := by
              simp [mem_state2, mem_state1, mem_state0, h2, hc1, hb]
            rw [hs1] at h ⊢
            exact ih buffer (front ++ [0xFF, c1, b]) (cur + 1) _ (by simp [scan_inv])
              (by simp [hbuf, held])
              (by simp only [List.length_append, List.length_cons, List.length_nil]; omega)
              (by simp only [List.length_append, List.length_cons, List.length_nil]; omega)
              hlen h
      · have h2f : state2_reject b = false := by simpa using h2
        have hs1 : mem_state0 (mem_state1 (mem_state2 ⟨2, dropped, 0xFF, c1, c2, c3⟩ (cur + 1)
            b) (cur + 1) b) b = ⟨3, dropped, 0xFF, c1, b, c3⟩ := by
          simp [mem_state2, mem_state1, mem_state0, h2f]
        rw [hs1] at h ⊢
        exact ih buffer front (cur + 1) _ (by simp [scan_inv, t1, h2f]) (by simp [hbuf, held])
          (by simp only; omega) hd hlen h
    · -- state 3
      have hinv : scan_inv ⟨3, dropped, c0, c1, c2, c3⟩ := ⟨h3, i0, i1, i2⟩
      have hne := scan_inv_frame_size ⟨3, dropped, c0, c1, c2, c3⟩ b hinv rfl
      have hstep := mem_state3_ret ⟨3, dropped, c0, c1, c2, c3⟩ (cur + 1) b rfl hne
      have hbl : buffer.length = front.length + 3 + (rest.length + 1) := by
        simp [hbuf, held]
        omega
      have hw : window_word buffer front.length = GF_4CC c0.val c1.val c2.val b.val := by
        rw [hbuf]
        simp only [held, List.append_assoc, List.cons_append, List.nil_append]
        exact window_word_append_left front c0 c1 c2 b rest
      rw [mem_loop, mem_loop_cur, hstep]
      refine ⟨front.length, by simp only; omega, ?_, ?_⟩
      · rw [hw]
        rfl
      · simp only
        omega

/-- Claim C17: when `gf_mp3_get_next_header_mem` returns a nonzero header on a
buffer (of `u32` size), let `s` be the index of the last byte read minus 3;
the returned header is the word of the four buffer bytes at `s .. s+3`, and
the offset written to `*pos` is either `s` or `s + 1`. -/
theorem gf_mp3_get_next_header_mem_offset_bound (buffer : List u8)
    (hsize : buffer.length < 2 ^ 32) (h : (gf_mp3_get_next_header_mem buffer).1 ≠ 0) :
    ∃ s, mem_bytes_read buffer - 1 = s + 3 ∧ 0 < mem_bytes_read buffer ∧
      (gf_mp3_get_next_header_mem buffer).1 = window_word buffer s ∧
      ((gf_mp3_get_next_header_mem buffer).2 = s ∨
        (gf_mp3_get_next_header_mem buffer).2 = s + 1) := by
  obtain ⟨k, hk, hw, hp⟩ := mem_loop_trace buffer buffer [] 0 Scan.init
    (by simp [scan_inv, Scan.init]) (by simp [held, Scan.init]) (by simp [Scan.init])
    (by simp [Scan.init]) hsize h
  refine ⟨k, ?_, ?_, hw, hp⟩
  · unfold mem_bytes_read
    omega
  · unfold mem_bytes_read
    omega

/-- Witness for claim C17: the buffer `FF 00 FF FB 90 00`, where the last byte
read has index 5, the header starts at 2 and the offset is 3. -/
theorem gf_mp3_get_next_header_mem_offset_bound_witness :
    ∃ s, mem_bytes_read [0xFF, 0x00, 0xFF, 0xFB, 0x90, 0x00] - 1 = s + 3 ∧
      0 < mem_bytes_read [0xFF, 0x00, 0xFF, 0xFB, 0x90, 0x00] ∧
      (gf_mp3_get_next_header_mem [0xFF, 0x00, 0xFF, 0xFB, 0x90, 0x00]).1 =
        window_word [0xFF, 0x00, 0xFF, 0xFB, 0x90, 0x00] s ∧
      ((gf_mp3_get_next_header_mem [0xFF, 0x00, 0xFF, 0xFB, 0x90, 0x00]).2 = s ∨
        (gf_mp3_get_next_header_mem [0xFF, 0x00, 0xFF, 0xFB, 0x90, 0x00]).2 = s + 1) :=
  gf_mp3_get_next_header_mem_offset_bound [0xFF, 0x00, 0xFF, 0xFB, 0x90, 0x00]
    (by decide) (by decide)

/-! ## Resynchronisation and frame-by-frame extraction -/

theorem mem_result_of_first_valid (buffer : List u8) (i : Nat) (hi : valid_window buffer i)
    (hmin : ∀ j, j < i → ¬ valid_window buffer j) :
    (gf_mp3_get_next_header_mem buffer).1 = window_word buffer i := by
  rw [gf_mp3_get_next_header_mem_fst]
  exact first_sync_of_window buffer i hi.1
    fun j hj hw => hmin j hj ((valid_window_iff_sync buffer j).mpr hw)

theorem mem_result_ne_zero_of_valid (buffer : List u8) (i : Nat) (hi : valid_window buffer i) :
    (gf_mp3_get_next_header_mem buffer).1 ≠ 0 := by
  have hex : ∃ k, valid_window buffer k := ⟨i, hi⟩
  have hk := Nat.find_spec hex
  rw [mem_result_of_first_valid buffer (Nat.find hex) hk (fun j hj => Nat.find_min hex hj)]
  exact structurally_valid_ne_zero (sync_window_structurally_valid hk.1)

/-- Claim C15: when a buffer holds at index `i` a 4-byte candidate that passes
the sync checks of the automaton (`0xFF`, then a byte passing the state-1
test) but whose word has frame size 0, and a fully valid header starts one
byte later, `gf_mp3_get_next_header_mem` does not return 0; and it returns
that later header whenever no valid header starts before the candidate. -/
theorem gf_mp3_get_next_header_mem_resync (buffer : List u8) (i : Nat)
    (_hcand : i + 3 < buffer.length ∧ buffer.getD i 0 = 0xFF ∧
      passes_state1 (buffer.getD (i + 1) 0))
    (hzero : gf_mp3_frame_size (window_word buffer i) = 0)
    (hnext : valid_window buffer (i + 1)) :
    (gf_mp3_get_next_header_mem buffer).1 ≠ 0 ∧
    ((∀ j, j < i → ¬ valid_window buffer j) →
      (gf_mp3_get_next_header_mem buffer).1 = window_word buffer (i + 1)) := by
  refine ⟨mem_result_ne_zero_of_valid buffer (i + 1) hnext, fun hbefore => ?_⟩
  apply mem_result_of_first_valid buffer (i + 1) hnext
  intro j hj hv
  rcases Nat.lt_succ_iff_lt_or_eq.mp hj with hlt | heq
  · exact hbefore j hlt hv
  · rw [heq] at hv
    exact hv.2 hzero

/-- Witness for claim C15: the buffer `FF FF FB 90 00`; the candidate
`FF FF FB 90` at index 0 has frame size 0 (bitrate index 15) and the valid
header `FF FB 90 00` starts at index 1. -/
theorem gf_mp3_get_next_header_mem_resync_witness :
    (gf_mp3_get_next_header_mem [0xFF, 0xFF, 0xFB, 0x90, 0x00]).1 ≠ 0 ∧
    ((∀ j, j < 0 → ¬ valid_window [0xFF, 0xFF, 0xFB, 0x90, 0x00] j) →
      (gf_mp3_get_next_header_mem [0xFF, 0xFF, 0xFB, 0x90, 0x00]).1 =
        window_word [0xFF, 0xFF, 0xFB, 0x90, 0x00] (0 + 1)) :=
  gf_mp3_get_next_header_mem_resync [0xFF, 0xFF, 0xFB, 0x90, 0x00] 0
    (by decide) (by decide) (by decide)

theorem valid_frame_shape {frame : List u8} (h : valid_frame frame) :
    ∃ (b1 b2 b3 : u8) (tl : List u8), frame = 0xFF :: b1 :: b2 :: b3 :: tl ∧
      state1_test b1 = true ∧ state2_reject b2 = false ∧
      window_word frame 0 = GF_4CC 0xFF b1.val b2.val b3.val := by
  obtain ⟨hlen, hvalid, _⟩ := h
  match frame, hlen, hvalid with
  | b0 :: b1 :: b2 :: b3 :: tl, _, hvalid =>
    have hw : window_word (b0 :: b1 :: b2 :: b3 :: tl) 0 =
        GF_4CC b0.val b1.val b2.val b3.val := by
      simp [window_word]
    rw [hw] at hvalid
    obtain ⟨e0, t1, t2⟩ := structurally_valid_bytes b0 b1 b2 b3 hvalid
    subst e0
    exact ⟨b1, b2, b3, tl, rfl, t1, t2, by rw [hw, u8_FF_val]⟩

theorem mem_on_valid_frame {frame : List u8} (h : valid_frame frame) (rest : List u8) :
    gf_mp3_get_next_header_mem (frame ++ rest) = (window_word frame 0, 0) := by
  obtain ⟨b1, b2, b3, tl, hf, t1, t2, hw⟩ := valid_frame_shape h
  rw [hw, hf]
  exact mem_header_after_no_FF [] (tl ++ rest) b1 b2 b3 (by simp) t1 t2 (by decide)

/-- Claim C14: on a buffer that is the concatenation of `K` valid frames,
calling `gf_mp3_get_next_header_mem` on the remaining buffer and advancing by
the returned offset plus the frame size of the returned header, again and
again, yields exactly `K` nonzero results, the `i`-th being the header of the
`i`-th frame with offset 0, and then a call that returns 0. -/
theorem spec_extract_headers_of_valid_frames (frames : List (List u8))
    (hframes : ∀ f ∈ frames, valid_frame f) (fuel : Nat) (hfuel : frames.length < fuel) :
    spec_extract_headers fuel frames.flatten = some (frames.map fun f => (window_word f 0, 0)) ∧
    (∀ f ∈ frames, window_word f 0 ≠ 0) ∧
    gf_mp3_get_next_header_mem (frames.flatten.drop frames.flatten.length) = (0, 0) := by
  refine ⟨?_, ?_, ?_⟩
  · induction frames generalizing fuel with
    | nil =>
      obtain ⟨n, rfl⟩ := Nat.exists_eq_succ_of_ne_zero (Nat.pos_iff_ne_zero.mp hfuel)
      rfl
    | cons f fs ih =>
      obtain ⟨n, rfl⟩ := Nat.exists_eq_succ_of_ne_zero
        (Nat.pos_iff_ne_zero.mp (Nat.lt_of_le_of_lt (Nat.zero_le _) hfuel))
      have hf := hframes f (List.mem_cons_self _ _)
      have hmem := mem_on_valid_frame hf fs.flatten
      have hne : window_word f 0 ≠ 0 := structurally_valid_ne_zero hf.2.1
      have hdrop : (f ++ fs.flatten).drop (0 + gf_mp3_frame_size (window_word f 0)) =
          fs.flatten := by
        rw [Nat.zero_add, ← hf.2.2]
        exact List.drop_left f fs.flatten
      simp only [List.length_cons] at hfuel
      rw [List.flatten_cons, spec_extract_headers, hmem]
      simp only [if_neg hne, hdrop]
      rw [ih (fun g hg => hframes g (List.mem_cons_of_mem _ hg)) n (by omega)]
      rfl
  · intro f hf
    exact structurally_valid_ne_zero (hframes f hf).2.1
  · rw [List.drop_length]
    rfl

/-- Witness for claim C14: two copies of the 24-byte MPEG-2 Layer III frame
with header `FF F2 14 00` (8000 bit/s at 24000 Hz). -/
theorem spec_extract_headers_of_valid_frames_witness :
    spec_extract_headers 3
        [0xFF :: 0xF2 :: 0x14 :: 0x00 :: List.replicate 20 (0 : u8),
          0xFF :: 0xF2 :: 0x14 :: 0x00 :: List.replicate 20 (0 : u8)].flatten =
      some ([0xFF :: 0xF2 :: 0x14 :: 0x00 :: List.replicate 20 (0 : u8),
          0xFF :: 0xF2 :: 0x14 :: 0x00 :: List.replicate 20 (0 : u8)].map
        fun f => (window_word f 0, 0)) :=
  (spec_extract_headers_of_valid_frames
    [0xFF :: 0xF2 :: 0x14 :: 0x00 :: List.replicate 20 (0 : u8),
      0xFF :: 0xF2 :: 0x14 :: 0x00 :: List.replicate 20 (0 : u8)]
    (by
      intro f hf
      simp only [List.mem_cons, List.mem_singleton, List.not_mem_nil, or_false, or_self] at hf
      rw [hf]
      decide)
    3 (by decide)).1

/-! ## The stream scanner with its implied first byte -/

theorem head_sync_fail1 (b0 : u8) {b1 : u8} (tl : List u8) (h : state1_test b1 = false) :
    head_sync (b0 :: b1 :: tl) = false := by
  match tl with
  | [] => rfl
  | [_] => rfl
  | _ :: _ :: _ => simp [head_sync, h]

theorem head_sync_fail2 (b0 b1 : u8) {b2 : u8} (tl : List u8) (h : state2_reject b2 = true) :
    head_sync (b0 :: b1 :: b2 :: tl) = false := by
  match tl with
  | [] => rfl
  | _ :: _ => simp [head_sync, h]

theorem short_sync_FF (tl : List u8) : short_sync (0xFF :: tl) = false := by
  simp [short_sync]

theorem short_sync_fail1 {b0 : u8} (tl : List u8) (h : state1_test b0 = false) :
    short_sync (b0 :: tl) = false := by
  simp [short_sync, head_sync_fail1 0xFF tl h]

theorem short_sync_fail2 (b0 : u8) {b1 : u8} (tl : List u8) (h : state2_reject b1 = true) :
    short_sync (b0 :: b1 :: tl) = false := by
  simp [short_sync, head_sync_fail2 0xFF b0 tl h]

theorem first_accepted_next (f : Bool) (b0 : u8) (tl : List u8)
    (h1 : head_sync (b0 :: tl) = false) (h2 : (f && short_sync (b0 :: tl)) = false) :
    first_accepted f (b0 :: tl) = first_accepted (f && (b0 == 0xFF || state1_test b0)) tl := by
  rw [first_accepted, h1, h2]
  rfl

theorem first_accepted_drop (f : Bool) {b : u8} (tl : List u8) (h : state1_test b = false) :
    first_accepted f (b :: tl) = first_accepted false tl := by
  have hb := ne_FF_of_state1_test_false h
  rw [first_accepted_next f b tl (head_sync_of_ne tl hb) (by simp [short_sync_fail1 tl h])]
  have hbeq : (b == 0xFF) = false := by simpa using hb
  rw [h, hbeq]
  simp

theorem first_accepted_skip_FF (f : Bool) (tl : List u8)
    (h : head_sync (0xFF :: tl) = false) :
    first_accepted f (0xFF :: tl) = first_accepted f tl := by
  rw [first_accepted_next f 0xFF tl h (by simp [short_sync_FF])]
  simp

theorem first_accepted_skip_T1 (f : Bool) {c1 b : u8} (tl : List u8) (hc : c1 ≠ 0xFF)
    (t1 : state1_test c1 = true) (h2 : state2_reject b = true) :
    first_accepted f (c1 :: b :: tl) = first_accepted f (b :: tl) := by
  rw [first_accepted_next f c1 (b :: tl) (head_sync_of_ne _ hc)
    (by simp [short_sync_fail2 c1 tl h2])]
  simp [t1]

theorem first_accepted_implied_FF {b : u8} (tl : List u8) (hb : b ≠ 0xFF) :
    first_accepted true (0xFF :: b :: tl) = first_accepted true (b :: tl) := by
  by_cases h : head_sync (0xFF :: b :: tl) = true
  · have hs : short_sync (b :: tl) = true := by simp [short_sync, hb, h]
    rw [first_accepted, if_pos h, first_accepted, head_sync_of_ne tl hb]
    simp [hs, short_word]
  · have hf : head_sync (0xFF :: b :: tl) = false := by simpa using h
    exact first_accepted_skip_FF true (b :: tl) hf

theorem first_accepted_accept (f : Bool) {b1 b2 : u8} (b3 : u8) (tl : List u8)
    (h1 : state1_test b1 = true) (h2 : state2_reject b2 = false) :
    first_accepted f (0xFF :: b1 :: b2 :: b3 :: tl) =
      GF_4CC (0xFF : u8).val b1.val b2.val b3.val := by
  have : head_sync (0xFF :: b1 :: b2 :: b3 :: tl) = true := by simp [head_sync, h1, h2]
  rw [first_accepted, if_pos this]
  rfl

theorem first_accepted_short (f : Bool) : ∀ l : List u8, l.length < 3 → first_accepted f l = 0
  | [], _ => rfl
  | [_], _ => by simp [first_accepted, head_sync, short_sync]
  | [_, _], _ => by simp [first_accepted, head_sync, short_sync]
  | _ :: _ :: _ :: _, h => by simp at h; omega

theorem first_accepted_held (f : Bool) (s : Scan) (hs : scan_inv s) :
    first_accepted f (held s) = 0 := by
  obtain ⟨state, dropped, c0, c1, c2, c3⟩ := s
  obtain ⟨h3, i0, _, _⟩ := hs
  simp only at h3 i0
  interval_cases state
  · rfl
  · exact first_accepted_short f _ (by simp [held])
  · exact first_accepted_short f _ (by simp [held])
  · have e0 : c0 = 0xFF := i0 (by omega)
    subst e0
    simp only [held]
    have hh : head_sync [0xFF, c1, c2] = false := rfl
    rw [first_accepted_skip_FF f [c1, c2] hh]
    exact first_accepted_short f _ (by simp)

theorem stream_loop_next (b : u8) (rest : List u8) (s : Scan) (h3 : s.state ≠ 3) :
    stream_loop (b :: rest) s =
      stream_loop rest (stream_state0 (stream_state1 (stream_state2 s b) b) b) := by
  rw [stream_loop, if_neg h3]

theorem first_accepted_no_short (f : Bool) {b : u8} (tl : List u8) (hb : b ≠ 0xFF)
    (h : ¬ (f = true ∧ state1_test b = true)) :
    first_accepted f (b :: tl) = first_accepted false tl := by
  have hflag : (f && short_sync (b :: tl)) = false := by
    cases f with
    | false => rfl
    | true =>
      have t1f : state1_test b = false := by simpa using h
      simp [short_sync_fail1 tl t1f]
  rw [first_accepted_next f b tl (head_sync_of_ne tl hb) hflag]
  have hflag2 : (f && (b == 0xFF || state1_test b)) = false := by
    cases f with
    | false => rfl
    | true =>
      have t1f : state1_test b = false := by simpa using h
      simp [t1f, hb]
  rw [hflag2]

theorem stream_loop_accepted (rest : List u8) : ∀ s : Scan, scan_inv s →
    s.dropped + rest.length < 2 ^ 32 →
    stream_loop rest s = first_accepted (decide (s.dropped = 0)) (held s ++ rest) := by
  induction rest with
  | nil =>
    intro s hs _
    rw [List.append_nil, first_accepted_held _ s hs]
    rfl
  | cons b rest ih =>
    intro s hs hlen
    obtain ⟨state, dropped, c0, c1, c2, c3⟩ := s
    obtain ⟨h3, i0, i1, i2⟩ := hs
    simp only [List.length_cons] at h3 i0 i1 i2 hlen
    have hwrap : (dropped + 1) % 2 ^ 32 = dropped + 1 := Nat.mod_eq_of_lt (by omega)
    have hfalse : decide (dropped + 1 = 0) = false := by simp
    interval_cases state
    · -- state 0
      rw [stream_loop_next b rest _ (by simp)]
      by_cases hb : b = 0xFF
      · subst hb
        have hs1 : stream_state0 (stream_state1 (stream_state2 ⟨0, dropped, c0, c1, c2, c3⟩
            0xFF) 0xFF) 0xFF = ⟨1, dropped, 0xFF, c1, c2, c3⟩ := by
          simp [stream_state2, stream_state1, stream_state0]
        rw [hs1, ih _ (by simp [scan_inv]) (by simp only; omega)]
        simp only [held, List.cons_append, List.nil_append]
      · by_cases hshort : dropped = 0 ∧ state1_test b = true
        · obtain ⟨hd0, t1⟩ := hshort
          subst hd0
          have hs1 : stream_state0 (stream_state1 (stream_state2 ⟨0, 0, c0, c1, c2, c3⟩
              b) b) b = ⟨2, 0, 0xFF, b, c2, c3⟩ := by
            simp [stream_state2, stream_state1, stream_state0, hb, t1]
          rw [hs1, ih _ (by simp [scan_inv, t1]) (by simp only; omega)]
          simp only [held, List.cons_append, List.nil_append, decide_True]
          exact first_accepted_implied_FF rest hb
        · have hs1 : stream_state0 (stream_state1 (stream_state2 ⟨0, dropped, c0, c1, c2, c3⟩
              b) b) b = ⟨0, (dropped + 1) % 2 ^ 32, c0, c1, c2, c3⟩ := by
            simp only [stream_state2, stream_state1, stream_state0]
            simp [hb, hshort]
          rw [hs1, ih _ (by simp [scan_inv]) (by simp only; omega)]
          simp only [held, List.nil_append, hwrap, hfalse]
          exact (first_accepted_no_short _ rest hb (by simpa using hshort)).symm
    · -- state 1
      have e0 : c0 = 0xFF := i0 (by omega)
      subst e0
      rw [stream_loop_next b rest _ (by simp)]
      by_cases h1 : state1_test b = true
      · have hs1 : stream_state0 (stream_state1 (stream_state2 ⟨1, dropped, 0xFF, c1, c2, c3⟩
            b) b) b = ⟨2, dropped, 0xFF, b, c2, c3⟩ := by
          simp [stream_state2, stream_state1, stream_state0, h1]
        rw [hs1, ih _ (by simp [scan_inv, h1]) (by simp only; omega)]
        simp only [held, List.cons_append, List.nil_append]
      · have h1f : state1_test b = false := by simpa using h1
        have hb := ne_FF_of_state1_test_false h1f
        have hs1 : stream_state0 (stream_state1 (stream_state2 ⟨1, dropped, 0xFF, c1, c2, c3⟩
            b) b) b = ⟨0, (dropped + 1) % 2 ^ 32, 0xFF, c1, c2, c3⟩ := by
          simp only [stream_state2, stream_state1, stream_state0]
          simp [h1f, hb]
        rw [hs1, ih _ (by simp [scan_inv]) (by simp only; omega)]
        simp only [held, List.cons_append, List.nil_append, hwrap, hfalse]
        rw [first_accepted_skip_FF _ (b :: rest) (head_sync_fail1 0xFF rest h1f),
          first_accepted_drop _ rest h1f]
    · -- state 2
      have e0 : c0 = 0xFF := i0 (by omega)
      have t1 : state1_test c1 = true := i1 (by omega)
      subst e0
      rw [stream_loop_next b rest _ (by simp)]
      by_cases h2 : state2_reject b = true
      · by_cases hc1 : c1 = 0xFF
        · subst hc1
          by_cases h1 : state1_test b = true
          · have hs1 : stream_state0 (stream_state1 (stream_state2
                ⟨2, dropped, 0xFF, 0xFF, c2, c3⟩ b) b) b = ⟨2, dropped, 0xFF, b, c2, c3⟩ := by
              simp [stream_state2, stream_state1, stream_state0, h1, h2]
            rw [hs1, ih _ (by simp [scan_inv, h1]) (by simp only; omega)]
            simp only [held, List.cons_append, List.nil_append]
            rw [first_accepted_skip_FF _ (0xFF :: b :: rest) (head_sync_fail2 0xFF 0xFF rest h2)]
          · have h1f : state1_test b = false := by simpa using h1
            have hb := ne_FF_of_state1_test_false h1f
            have hs1 : stream_state0 (stream_state1 (stream_state2
                ⟨2, dropped, 0xFF, 0xFF, c2, c3⟩ b) b) b =
                ⟨0, (dropped + 1) % 2 ^ 32, 0xFF, 0xFF, c2, c3⟩ := by
              simp only [stream_state2, stream_state1, stream_state0]
              simp [h1f, h2, hb]
            rw [hs1, ih _ (by simp [scan_inv]) (by simp only; omega)]
            simp only [held, List.cons_append, List.nil_append, hwrap, hfalse]
            rw [first_accepted_skip_FF _ (0xFF :: b :: rest) (head_sync_fail2 0xFF 0xFF rest h2),
              first_accepted_skip_FF _ (b :: rest) (head_sync_fail1 0xFF rest h1f),
              first_accepted_drop _ rest h1f]
        · by_cases hb : b = 0xFF
          · subst hb
            have hs1 : stream_state0 (stream_state1 (stream_state2
                ⟨2, dropped, 0xFF, c1, c2, c3⟩ 0xFF) 0xFF) 0xFF =
                ⟨1, dropped, 0xFF, c1, c2, c3⟩ := by
              simp [stream_state2, stream_state1, stream_state0, h2, hc1]
            rw [hs1, ih _ (by simp [scan_inv]) (by simp only; omega)]
            simp only [held, List.cons_append, List.nil_append]
            rw [first_accepted_skip_FF _ (c1 :: 0xFF :: rest) (head_sync_fail2 0xFF c1 rest h2),
              first_accepted_skip_T1 _ rest hc1 t1 h2]
          · by_cases hshort : dropped = 0 ∧ state1_test b = true
            · obtain ⟨hd0, tb⟩ := hshort
              subst hd0
              have hs1 : stream_state0 (stream_state1 (stream_state2
                  ⟨2, 0, 0xFF, c1, c2, c3⟩ b) b) b = ⟨2, 0, 0xFF, b, c2, c3⟩ := by
                simp [stream_state2, stream_state1, stream_state0, h2, hc1, hb, tb]
              rw [hs1, ih _ (by simp [scan_inv, tb]) (by simp only; omega)]
              simp only [held, List.cons_append, List.nil_append, decide_True]
              rw [first_accepted_implied_FF rest hb,
                first_accepted_skip_FF _ (c1 :: b :: rest) (head_sync_fail2 0xFF c1 rest h2),
                first_accepted_skip_T1 _ rest hc1 t1 h2]
            · have hs1 : stream_state0 (stream_state1 (stream_state2
                  ⟨2, dropped, 0xFF, c1, c2, c3⟩ b) b) b =
                  ⟨0, (dropped + 1) % 2 ^ 32, 0xFF, c1, c2, c3⟩ := by
                simp only [stream_state2, stream_state1, stream_state0]
                simp [h2, hc1, hb, hshort]
              rw [hs1, ih _ (by simp [scan_inv]) (by simp only; omega)]
              simp only [held, List.cons_append, List.nil_append, hwrap, hfalse]
              rw [first_accepted_skip_FF _ (c1 :: b :: rest) (head_sync_fail2 0xFF c1 rest h2),
                first_accepted_skip_T1 _ rest hc1 t1 h2,
                first_accepted_no_short _ rest hb (by simpa using hshort)]
      · have h2f : state2_reject b = false := by simpa using h2
        have hs1 : stream_state0 (stream_state1 (stream_state2 ⟨2, dropped, 0xFF, c1, c2, c3⟩
            b) b) b = ⟨3, dropped, 0xFF, c1, b, c3⟩ := by
          simp [stream_state2, stream_state1, stream_state0, h2f]
        rw [hs1, ih _ (by simp [scan_inv, t1, h2f]) (by simp only; omega)]
        simp only [held, List.cons_append, List.nil_append]
    · -- state 3
      have e0 : c0 = 0xFF := i0 (by omega)
      have t1 : state1_test c1 = true := i1 (by omega)
      have t2 : state2_reject c2 = false := i2 (by omega)
      subst e0
      rw [stream_loop, if_pos rfl]
      simp only [held, List.cons_append, List.nil_append, Scan.word,
        first_accepted_accept _ b rest t1 t2]

theorem shortcut_window_zero : ∀ l : List u8, shortcut_window l 0 ↔ short_sync l = true
  | [] => by simp [shortcut_window, short_sync]
  | [_] => by simp [shortcut_window, short_sync, head_sync]
  | [_, _] => by simp [shortcut_window, short_sync, head_sync]
  | b0 :: b1 :: b2 :: tl => by
    simp [shortcut_window, short_sync, head_sync, state1_test_iff, state2_reject_iff]

theorem shortcut_window_succ (b0 : u8) (tl : List u8) (i : Nat) :
    shortcut_window (b0 :: tl) (i + 1) ↔
      (b0 = 0xFF ∨ passes_state1 b0) ∧ shortcut_window tl i := by
  simp only [shortcut_window, List.length_cons, List.getD_cons_succ, Nat.add_right_comm i 1]
  constructor
  · rintro ⟨h, hpre, r⟩
    refine ⟨?_, by omega, ?_, r⟩
    · simpa using hpre 0 (Nat.succ_pos i)
    · intro j hj
      simpa using hpre (j + 1) (Nat.succ_lt_succ hj)
  · rintro ⟨h0, h, hpre, r⟩
    refine ⟨by omega, ?_, r⟩
    intro j hj
    cases j with
    | zero => simpa using h0
    | succ k => simpa using hpre k (Nat.lt_of_succ_lt_succ hj)

theorem shortcut_word_succ (b0 : u8) (tl : List u8) (i : Nat) :
    shortcut_word (b0 :: tl) (i + 1) = shortcut_word tl i := by
  simp only [shortcut_word, List.getD_cons_succ, Nat.add_right_comm i 1]

theorem short_word_eq : ∀ l : List u8, 3 ≤ l.length → short_word l = shortcut_word l 0
  | [], h => by simp at h
  | [_], h => by simp at h
  | [_, _], h => by simp at h
  | b0 :: b1 :: b2 :: tl, _ => by
    simp only [short_word, head_word, shortcut_word, u8_FF_val, List.getD_cons_zero,
      List.getD_cons_succ, Nat.zero_add]

theorem accepted_window_zero (f : Bool) (l : List u8) :
    accepted_window f l 0 ↔ head_sync l = true ∨ (f = true ∧ short_sync l = true) := by
  rw [accepted_window, head_sync_iff, shortcut_window_zero]

theorem accepted_window_succ (f : Bool) (b0 : u8) (tl : List u8) (i : Nat) :
    accepted_window f (b0 :: tl) (i + 1) ↔
      accepted_window (f && (b0 == 0xFF || state1_test b0)) tl i := by
  rw [accepted_window, accepted_window, sync_window_succ, shortcut_window_succ]
  simp only [Bool.and_eq_true, Bool.or_eq_true, beq_iff_eq, state1_test_iff]
  constructor
  · rintro (h | ⟨hf, h0, hw⟩)
    · exact Or.inl h
    · exact Or.inr ⟨⟨hf, h0⟩, hw⟩
  · rintro (h | ⟨⟨hf, h0⟩, hw⟩)
    · exact Or.inl h
    · exact Or.inr ⟨hf, h0, hw⟩

theorem accepted_word_succ (b0 : u8) (tl : List u8) (i : Nat) :
    accepted_word (b0 :: tl) (i + 1) = accepted_word tl i := by
  simp only [accepted_word, sync_window_succ, window_word_succ, shortcut_word_succ]

theorem first_accepted_of_window (l : List u8) : ∀ (f : Bool) (i : Nat),
    accepted_window f l i → (∀ j, j < i → ¬ accepted_window f l j) →
    first_accepted f l = accepted_word l i := by
  induction l with
  | nil =>
    intro f i hi
    rcases hi with h | ⟨_, h⟩
    · simp [sync_window] at h
    · have := h.1
      simp at this
  | cons b0 tl ih =>
    intro f i hi hmin
    by_cases h0 : accepted_window f (b0 :: tl) 0
    · have hi0 : i = 0 := by
        by_contra hne
        exact hmin 0 (Nat.pos_of_ne_zero hne) h0
      subst hi0
      by_cases hs : head_sync (b0 :: tl) = true
      · have hw := (head_sync_iff _).mp hs
        rw [first_accepted, if_pos hs, accepted_word, if_pos hw,
          head_word_eq _ (by have := hw.1; omega)]
      · have hw : ¬ sync_window (b0 :: tl) 0 := fun h => hs ((head_sync_iff _).mpr h)
        rcases (accepted_window_zero f _).mp h0 with h | ⟨hf, hsh⟩
        · exact absurd h hs
        · have hlen := ((shortcut_window_zero _).mpr hsh).1
          rw [first_accepted, if_neg hs, accepted_word, if_neg hw, hf, hsh]
          simp only [Bool.and_self, if_true]
          exact short_word_eq _ (by omega)
    · have hi0 : i ≠ 0 := by
        rintro rfl
        exact h0 hi
      obtain ⟨k, rfl⟩ := Nat.exists_eq_succ_of_ne_zero hi0
      have hs : head_sync (b0 :: tl) = false := by
        by_contra hne
        exact h0 ((accepted_window_zero f _).mpr (Or.inl (by simpa using hne)))
      have hsh : (f && short_sync (b0 :: tl)) = false := by
        by_contra hne
        have : f = true ∧ short_sync (b0 :: tl) = true := by simpa using hne
        exact h0 ((accepted_window_zero f _).mpr (Or.inr this))
      rw [first_accepted_next f b0 tl hs hsh, accepted_word_succ]
      apply ih _ k ((accepted_window_succ f b0 tl k).mp hi)
      intro j hj hw
      exact hmin (j + 1) (by omega) ((accepted_window_succ f b0 tl j).mpr hw)

theorem first_accepted_of_none (l : List u8) : ∀ f : Bool,
    (∀ i, ¬ accepted_window f l i) → first_accepted f l = 0 := by
  induction l with
  | nil => intro _ _; rfl
  | cons b0 tl ih =>
    intro f hno
    have h0 := hno 0
    have hs : head_sync (b0 :: tl) = false := by
      by_contra hne
      exact h0 ((accepted_window_zero f _).mpr (Or.inl (by simpa using hne)))
    have hsh : (f && short_sync (b0 :: tl)) = false := by
      by_contra hne
      have : f = true ∧ short_sync (b0 :: tl) = true := by simpa using hne
      exact h0 ((accepted_window_zero f _).mpr (Or.inr this))
    rw [first_accepted_next f b0 tl hs hsh]
    exact ih _ fun i hi => hno (i + 1) ((accepted_window_succ f b0 tl i).mpr hi)

theorem accepted_word_ne_zero {f : Bool} {l : List u8} {i : Nat}
    (h : accepted_window f l i) : accepted_word l i ≠ 0 := by
  unfold accepted_word
  split
  · rename_i hs
    exact structurally_valid_ne_zero (sync_window_structurally_valid hs)
  · rename_i hs
    rcases h with h | ⟨_, h⟩
    · exact absurd h hs
    · exact structurally_valid_ne_zero (sync_word_structurally_valid _ _ _
        ((state1_test_iff _).mpr h.2.2.2.1) ((state2_reject_iff _).mpr h.2.2.2.2))

theorem gf_mp3_get_next_header_accepted (input : List u8) (hlen : input.length < 2 ^ 32) :
    gf_mp3_get_next_header input = first_accepted true input := by
  have h := stream_loop_accepted input Scan.init (by simp [scan_inv, Scan.init])
    (by simp only [Scan.init]; omega)
  simpa [held, Scan.init] using h

/-- Claim C5, amended: on every input of fewer than `2^32` bytes,
`gf_mp3_get_next_header` returns the word of the first sequence it accepts and
0 when there is none, where the sequence accepted at an index is either four
consecutive input bytes satisfying the sync automaton, or three consecutive
input bytes, the first other than `0xFF` and passing the state-1 test, the
second passing the state-2 test, and every earlier byte being `0xFF` or
passing the state-1 test (no byte dropped yet), composed after an implied
`0xFF`.  So on an input without such a three-byte sequence the result is the
word of the first four consecutive bytes satisfying the sync automaton, and 0
when there are none. -/
theorem gf_mp3_get_next_header_first_sync (input : List u8) (hlen : input.length < 2 ^ 32) :
    (gf_mp3_get_next_header input = 0 ↔
      ∀ i, ¬ sync_window input i ∧ ¬ shortcut_window input i) ∧
    (∀ i, sync_window input i →
      (∀ j, j < i → ¬ sync_window input j ∧ ¬ shortcut_window input j) →
      gf_mp3_get_next_header input = window_word input i) ∧
    (∀ i, shortcut_window input i →
      (∀ j, j < i → ¬ sync_window input j ∧ ¬ shortcut_window input j) →
      gf_mp3_get_next_header input = shortcut_word input i) ∧
    ((∀ i, ¬ shortcut_window input i) →
      (gf_mp3_get_next_header input = 0 ↔ ∀ i, ¬ sync_window input i) ∧
      (∀ i, sync_window input i → (∀ j, j < i → ¬ sync_window input j) →
        gf_mp3_get_next_header input = window_word input i)) := by
  have hacc := gf_mp3_get_next_header_accepted input hlen
  have hiff : ∀ i, accepted_window true input i ↔
      sync_window input i ∨ shortcut_window input i := by
    intro i
    simp [accepted_window]
  have hmin : ∀ i, accepted_window true input i →
      (∀ j, j < i → ¬ sync_window input j ∧ ¬ shortcut_window input j) →
      gf_mp3_get_next_header input = accepted_word input i := by
    intro i hi hlt
    rw [hacc]
    apply first_accepted_of_window input true i hi
    intro j hj hw
    rcases (hiff j).mp hw with h | h
    · exact (hlt j hj).1 h
    · exact (hlt j hj).2 h
  have hzero : gf_mp3_get_next_header input = 0 ↔
      ∀ i, ¬ sync_window input i ∧ ¬ shortcut_window input i := by
    constructor
    · intro h0 i
      by_contra hne
      have hex : ∃ k, accepted_window true input k := by
        refine ⟨i, (hiff i).mpr ?_⟩
        by_contra hno
        exact hne ⟨fun h => hno (Or.inl h), fun h => hno (Or.inr h)⟩
      have hk := Nat.find_spec hex
      have hw := hmin (Nat.find hex) hk fun j hj =>
        ⟨fun h => Nat.find_min hex hj ((hiff j).mpr (Or.inl h)),
          fun h => Nat.find_min hex hj ((hiff j).mpr (Or.inr h))⟩
      rw [h0] at hw
      exact accepted_word_ne_zero hk hw.symm
    · intro hno
      rw [hacc]
      apply first_accepted_of_none input true
      intro i hi
      rcases (hiff i).mp hi with h | h
      · exact (hno i).1 h
      · exact (hno i).2 h
  have hsync : ∀ i, sync_window input i →
      (∀ j, j < i → ¬ sync_window input j ∧ ¬ shortcut_window input j) →
      gf_mp3_get_next_header input = window_word input i := by
    intro i hi hlt
    rw [hmin i ((hiff i).mpr (Or.inl hi)) hlt, accepted_word, if_pos hi]
  refine ⟨hzero, hsync, ?_, ?_⟩
  · intro i hi hlt
    have hns : ¬ sync_window input i := fun hs => hi.2.2.1 hs.2.1
    rw [hmin i ((hiff i).mpr (Or.inr hi)) hlt, accepted_word, if_neg hns]
  · intro hns
    constructor
    · rw [hzero]
      constructor
      · exact fun h i => (h i).1
      · exact fun h i => ⟨h i, hns i⟩
    · intro i hi hlt
      exact hsync i hi fun j hj => ⟨hlt j hj, hns j⟩

/-- Witness for claim C5, amended: the stream `FF FB 90 00`, which starts on a
header, and the stream `FF FB FB 90 00`, where the three bytes at index 2 are
accepted after an implied `0xFF`. -/
theorem gf_mp3_get_next_header_first_sync_witness :
    gf_mp3_get_next_header [0xFF, 0xFB, 0x90, 0x00] =
      window_word [0xFF, 0xFB, 0x90, 0x00] 0 ∧
    gf_mp3_get_next_header [0xFF, 0xFB, 0xFB, 0x90, 0x00] =
      shortcut_word [0xFF, 0xFB, 0xFB, 0x90, 0x00] 2 :=
  ⟨(gf_mp3_get_next_header_first_sync [0xFF, 0xFB, 0x90, 0x00] (by decide)).2.1 0
      (by decide) (by decide),
    (gf_mp3_get_next_header_first_sync [0xFF, 0xFB, 0xFB, 0x90, 0x00] (by decide)).2.2.1 2
      (by decide) (by decide)⟩

end Mp3
